import Mathlib

/-!
Verification of the health-sync engine: a shallow embedding of the
server-side ingestion endpoint (`dashboard/app/api/sync/refresh/route.ts`,
sync handler) and of the iOS client sync pipeline
(`HealthKitManager.swift`, `SyncManager.swift`, `Models.swift`,
`AnchorStore.swift`), together with proofs of the spec's testable
properties.

Modelling conventions:
* JavaScript / Swift floating-point sample values are modelled as `Int`;
  every property below depends only on equality and zero-ness of values,
  never on floating-point rounding.
* Timestamps travel as their ISO-8601 `String` encodings (the JSON wire
  form); client `Date` values used for arithmetic are epoch seconds (`Int`).
* The SHA-256 hex digest is modelled as an injective deterministic
  function of the key string (the identity); every property below depends
  only on the digest being a deterministic function of its input string,
  which holds for the real digest.
* `JSON.stringify` of a metadata object is modelled by keeping the
  association list itself.
-/

namespace HealthSync

/-! ## Server-side data model (route.ts) -/

/-- `interface HealthRecordPayload` from route.ts. -/
structure HealthRecordPayload where
  recordType : String
  sourceName : String
  sourceBundle : Option String
  value : Option Int
  valueText : Option String
  unit : Option String
  startTime : String
  endTime : String
  metadata : Option (List (String × String))
  deriving DecidableEq, Repr

/-- `interface WorkoutPayload` from route.ts. -/
structure WorkoutPayload where
  workoutType : String
  sourceName : String
  sourceBundle : Option String
  startTime : String
  endTime : String
  durationSeconds : Int
  totalDistance : Option Int
  totalEnergyBurned : Option Int
  statistics : Option (List (String × Int))
  metadata : Option (List (String × String))
  deriving DecidableEq, Repr

/-- `interface SyncBatch` from route.ts (same shape as the Swift struct
`SyncBatch` in Models.swift, which is what the client serializes). -/
structure SyncBatch where
  dataType : String
  records : Option (List HealthRecordPayload)
  workouts : Option (List WorkoutPayload)
  deletedUUIDs : List String
  deviceId : String
  timestamp : String
  deriving DecidableEq, Repr

/-- JavaScript template interpolation of `record.value ?? record.valueText`:
`??` falls through only on null/undefined (`none`), and an absent pair
interpolates as the string "undefined". -/
def jsInterp : Option Int → Option String → String
  | some v, _ => toString v
  | none, some t => t
  | none, none => "undefined"

/-- The key string built inside `generateRecordHash`. -/
def recordKey (r : HealthRecordPayload) : String :=
  r.recordType ++ "|" ++ r.sourceName ++ "|" ++ r.startTime ++ "|" ++
    r.endTime ++ "|" ++ jsInterp r.value r.valueText

/-- The key string built inside `generateWorkoutHash`. -/
def workoutKey (w : WorkoutPayload) : String :=
  w.workoutType ++ "|" ++ w.sourceName ++ "|" ++ w.startTime ++ "|" ++
    w.endTime ++ "|" ++ toString w.durationSeconds

/-- Model of `createHash("sha256").update(key).digest("hex")`: an injective
deterministic function of the key string (identity).  All properties proved
below depend only on the digest being a deterministic function of the key. -/
def sha256hex (s : String) : String := s

/-- `generateRecordHash` from route.ts. -/
def generateRecordHash (r : HealthRecordPayload) : String :=
  sha256hex (recordKey r)

/-- `generateWorkoutHash` from route.ts. -/
def generateWorkoutHash (w : WorkoutPayload) : String :=
  sha256hex (workoutKey w)

/-- JavaScript truthiness of an optional numeric value: null/undefined and
`0` are falsy, any other number is truthy (used by
`workout.totalDistance ? "mi" : null`). -/
def jsTruthy : Option Int → Bool
  | none => false
  | some v => v != 0

/-- A row of the `health_raw` table as written by the INSERT in route.ts. -/
structure HealthRow where
  record_type : String
  source_name : String
  source_bundle_id : Option String
  unit : Option String
  value_numeric : Option Int
  value_text : Option String
  start_time : String
  end_time : String
  metadata : Option (List (String × String))
  record_hash : String
  deriving DecidableEq, Repr

/-- A row of the `workouts` table as written by the INSERT in route.ts. -/
structure WorkoutRow where
  workout_type : String
  source_name : String
  source_bundle_id : Option String
  start_time : String
  end_time : String
  duration_seconds : Int
  total_distance : Option Int
  total_distance_unit : Option String
  total_energy_burned : Option Int
  total_energy_unit : Option String
  avg_heart_rate : Option Int
  min_heart_rate : Option Int
  max_heart_rate : Option Int
  metadata : Option (List (String × String))
  workout_hash : String
  deriving DecidableEq, Repr

/-- The values bound by the `health_raw` INSERT for one record payload. -/
def recordRow (r : HealthRecordPayload) : HealthRow :=
  { record_type := r.recordType
    source_name := r.sourceName
    source_bundle_id := r.sourceBundle
    unit := r.unit
    value_numeric := r.value
    value_text := r.valueText
    start_time := r.startTime
    end_time := r.endTime
    metadata := r.metadata
    record_hash := generateRecordHash r }

/-- The values bound by the `workouts` INSERT for one workout payload:
the unit columns come from JavaScript truthiness of the numeric fields
(`workout.totalDistance ? "mi" : null`, `workout.totalEnergyBurned ?
"kcal" : null`), and the heart-rate columns from
`workout.statistics?.heartRateAvg` etc. -/
def workoutRow (w : WorkoutPayload) : WorkoutRow :=
  { workout_type := w.workoutType
    source_name := w.sourceName
    source_bundle_id := w.sourceBundle
    start_time := w.startTime
    end_time := w.endTime
    duration_seconds := w.durationSeconds
    total_distance := w.totalDistance
    total_distance_unit := if jsTruthy w.totalDistance then some "mi" else none
    total_energy_burned := w.totalEnergyBurned
    total_energy_unit := if jsTruthy w.totalEnergyBurned then some "kcal" else none
    avg_heart_rate := w.statistics.bind (List.lookup "heartRateAvg")
    min_heart_rate := w.statistics.bind (List.lookup "heartRateMin")
    max_heart_rate := w.statistics.bind (List.lookup "heartRateMax")
    metadata := w.metadata
    workout_hash := generateWorkoutHash w }

/-- The durable store behind the endpoint: the `health_raw` and `workouts`
tables, each with a unique index on its hash column. -/
structure DB where
  healthRaw : List HealthRow
  workouts : List WorkoutRow
  deriving DecidableEq, Repr

/-- The record hashes present in the `health_raw` table (the values the
unique index on `record_hash` guards). -/
def recHashes (db : DB) : List String :=
  db.healthRaw.map HealthRow.record_hash

/-- The workout hashes present in the `workouts` table. -/
def wkHashes (db : DB) : List String :=
  db.workouts.map WorkoutRow.workout_hash

/-- One `client.query` of the `health_raw` INSERT ... ON CONFLICT
(record_hash) DO NOTHING, for one record.  `qfail` says whether the storage
layer raises an unrecoverable error on this payload (e.g. a constraint
violation); otherwise the result is the new table state and the rowCount
(1 = inserted, 0 = conflict, i.e. duplicate). -/
def insertRecordQuery (qfail : HealthRecordPayload → Bool) (db : DB)
    (r : HealthRecordPayload) : Except String (DB × Nat) :=
  if qfail r then .error "storage failure"
  else
    let row := recordRow r
    if db.healthRaw.any (fun x => x.record_hash == row.record_hash) then
      .ok (db, 0)
    else
      .ok ({ db with healthRaw := db.healthRaw ++ [row] }, 1)

/-- One `client.query` of the `workouts` INSERT ... ON CONFLICT
(workout_hash) DO NOTHING, for one workout. -/
def insertWorkoutQuery (wfail : WorkoutPayload → Bool) (db : DB)
    (w : WorkoutPayload) : Except String (DB × Nat) :=
  if wfail w then .error "storage failure"
  else
    let row := workoutRow w
    if db.workouts.any (fun x => x.workout_hash == row.workout_hash) then
      .ok (db, 0)
    else
      .ok ({ db with workouts := db.workouts ++ [row] }, 1)

/-- The `for (const record of batch.records)` loop of the handler: hash,
insert-or-skip, count.  Returns the table state together with the
(insertedRecords, skippedDuplicates) deltas contributed by this loop. -/
def processRecordList (qfail : HealthRecordPayload → Bool) :
    DB → List HealthRecordPayload → Except String (DB × Nat × Nat)
  | db, [] => .ok (db, 0, 0)
  | db, r :: rs =>
    match insertRecordQuery qfail db r with
    | .error e => .error e
    | .ok (db', n) =>
      match processRecordList qfail db' rs with
      | .error e => .error e
      | .ok (db'', i, s) =>
        if n > 0 then .ok (db'', i + 1, s) else .ok (db'', i, s + 1)

/-- The `for (const workout of batch.workouts)` loop of the handler. -/
def processWorkoutList (wfail : WorkoutPayload → Bool) :
    DB → List WorkoutPayload → Except String (DB × Nat × Nat)
  | db, [] => .ok (db, 0, 0)
  | db, w :: ws =>
    match insertWorkoutQuery wfail db w with
    | .error e => .error e
    | .ok (db', n) =>
      match processWorkoutList wfail db' ws with
      | .error e => .error e
      | .ok (db'', i, s) =>
        if n > 0 then .ok (db'', i + 1, s) else .ok (db'', i, s + 1)

/-- The counters returned by a successful sync response. -/
structure Counts where
  insertedRecords : Nat
  insertedWorkouts : Nat
  skippedDuplicates : Nat
  deriving DecidableEq, Repr

/-- The `if (batch.records && batch.records.length > 0)` guard around the
records loop: run the loop exactly when the field is present and
non-empty. -/
def recordsStep (qfail : HealthRecordPayload → Bool) (db : DB) :
    Option (List HealthRecordPayload) → Except String (DB × Nat × Nat)
  | some rs => if rs.length > 0 then processRecordList qfail db rs else .ok (db, 0, 0)
  | none => .ok (db, 0, 0)

/-- The `if (batch.workouts && batch.workouts.length > 0)` guard around
the workouts loop. -/
def workoutsStep (wfail : WorkoutPayload → Bool) (db : DB) :
    Option (List WorkoutPayload) → Except String (DB × Nat × Nat)
  | some ws => if ws.length > 0 then processWorkoutList wfail db ws else .ok (db, 0, 0)
  | none => .ok (db, 0, 0)

/-- The transactional body of the handler (between BEGIN and COMMIT):
the guarded records loop, then the guarded workouts loop, sharing the
skippedDuplicates counter.  An `.error` result models a thrown query
error, which the handler answers with ROLLBACK. -/
def processBatch (qfail : HealthRecordPayload → Bool)
    (wfail : WorkoutPayload → Bool) (db : DB) (batch : SyncBatch) :
    Except String (DB × Counts) :=
  match recordsStep qfail db batch.records with
  | .error e => .error e
  | .ok (db1, ir, s1) =>
    match workoutsStep wfail db1 batch.workouts with
    | .error e => .error e
    | .ok (db2, iw, s2) => .ok (db2, ⟨ir, iw, s1 + s2⟩)

/-- The three response shapes of the sync POST handler. -/
inductive SyncResponse where
  | unauthorized
  | ok (insertedRecords insertedWorkouts skippedDuplicates : Nat)
  | syncFailed (details : String)
  deriving DecidableEq, Repr

/-- JavaScript `String.prototype.startsWith`, over the character list. -/
def jsStartsWith (s pre : String) : Bool :=
  s.data.take pre.data.length == pre.data

/-- JavaScript `String.prototype.slice(n)` (drop the first `n` characters). -/
def jsSlice (s : String) (n : Nat) : String :=
  String.mk (s.data.drop n)

/-- The handler's auth check:
`!authHeader?.startsWith("Bearer ") || authHeader.slice(7) !== API_SECRET`
(a missing header short-circuits to unauthorized via optional chaining). -/
def authOk (secret : String) (authHeader : Option String) : Bool :=
  match authHeader with
  | none => false
  | some h => jsStartsWith h "Bearer " && jsSlice h 7 == secret

/-- `POST` of route.ts (sync handler): auth check first, then the
transactional batch body; on a thrown query error the transaction is
rolled back, so the store reverts to its pre-call state and the response
is the 500 "Sync failed" shape.  The pair is (stored state after the
call, response). -/
def POST (qfail : HealthRecordPayload → Bool) (wfail : WorkoutPayload → Bool)
    (secret : String) (authHeader : Option String) (db : DB)
    (batch : SyncBatch) : DB × SyncResponse :=
  if !authOk secret authHeader then (db, .unauthorized)
  else
    match processBatch qfail wfail db batch with
    | .ok (db', c) => (db', .ok c.insertedRecords c.insertedWorkouts c.skippedDuplicates)
    | .error e => (db, .syncFailed e)

/-! ## Client-side data model (Models.swift, AnchorStore.swift) -/

/-- `enum HealthDataType` from Models.swift. -/
inductive HealthDataType where
  | stepCount
  | heartRate
  | activeEnergyBurned
  | workout
  | sleepAnalysis
  | bodyMass
  | vo2Max
  deriving DecidableEq, Repr

/-- The `rawValue` strings of `HealthDataType`. -/
def HealthDataType.rawValue : HealthDataType → String
  | .stepCount => "HKQuantityTypeIdentifierStepCount"
  | .heartRate => "HKQuantityTypeIdentifierHeartRate"
  | .activeEnergyBurned => "HKQuantityTypeIdentifierActiveEnergyBurned"
  | .workout => "HKWorkoutType"
  | .sleepAnalysis => "HKCategoryTypeIdentifierSleepAnalysis"
  | .bodyMass => "HKQuantityTypeIdentifierBodyMass"
  | .vo2Max => "HKQuantityTypeIdentifierVO2Max"

/-- Swift's `HealthDataType(rawValue:)` failable initializer. -/
def HealthDataType.fromRaw (s : String) : Option HealthDataType :=
  if s == "HKQuantityTypeIdentifierStepCount" then some .stepCount
  else if s == "HKQuantityTypeIdentifierHeartRate" then some .heartRate
  else if s == "HKQuantityTypeIdentifierActiveEnergyBurned" then some .activeEnergyBurned
  else if s == "HKWorkoutType" then some .workout
  else if s == "HKCategoryTypeIdentifierSleepAnalysis" then some .sleepAnalysis
  else if s == "HKQuantityTypeIdentifierBodyMass" then some .bodyMass
  else if s == "HKQuantityTypeIdentifierVO2Max" then some .vo2Max
  else none

/-! `struct SyncConfig` from Models.swift (the fields the sync logic reads). -/
namespace SyncConfig

def serverURL : String := "https://fit.justslobo.com/api/sync"

def refreshURL : String := "https://fit.justslobo.com/api/sync/refresh"

def batchSize : Nat := 1000

/-- Initial backfill window, in days. -/
def backfillDays : Int := 30

end SyncConfig

/-- An `HKSample` as seen by `syncData`: a quantity sample, a category
sample, or a workout.  Payload conversion (`toPayload`) is HealthKit /
unit logic outside the sync engine, so a sample carries its converted
payload; a workout also carries the value of its `shouldSync` filter
(source-is-watch and recognized activity type, Models.swift). -/
inductive SampleData where
  | quantity (p : HealthRecordPayload)
  | category (p : HealthRecordPayload)
  | workout (w : WorkoutPayload) (shouldSync : Bool)
  deriving DecidableEq, Repr

/-- A sample in the HealthKit store: its payload data, its start date
(epoch seconds, used by the time predicate) and its insertion sequence
number (HealthKit's anchor ordering). -/
structure Sample where
  data : SampleData
  startDate : Int
  seq : Nat
  deriving DecidableEq, Repr

/-- The HealthKit store for one sample type: current samples plus deletion
events, each tagged with an anchor sequence number. -/
structure HKStore where
  samples : List Sample
  deleted : List (Nat × String)
  deriving DecidableEq, Repr

/-- The anchor value returned by an anchored query: the store's high-water
sequence number. -/
def HKStore.maxSeq (store : HKStore) : Nat :=
  (store.samples.map Sample.seq ++ store.deleted.map Prod.fst).foldl max 0

/-- Semantics of `HKAnchoredObjectQuery` (platform behavior, modelled from
its documented contract): return the samples added after the anchor that
satisfy the predicate, the UUIDs deleted after the anchor, and a new
anchor.  A `some lo` predicate is
`HKQuery.predicateForSamples(withStart: lo, end: nil, options: .strictStartDate)`:
it keeps exactly the samples whose start date is at or after `lo`. -/
def anchoredQuery (store : HKStore) (anchor : Option Nat)
    (predicateStart : Option Int) : List Sample × List String × Option Nat :=
  let anchorOk : Nat → Bool := fun seq =>
    match anchor with
    | some a => decide (a < seq)
    | none => true
  let predOk : Int → Bool := fun d =>
    match predicateStart with
    | some lo => decide (lo ≤ d)
    | none => true
  (store.samples.filter (fun s => anchorOk s.seq && predOk s.startDate),
   (store.deleted.filter (fun d => anchorOk d.1)).map Prod.snd,
   some store.maxSeq)

/-- The predicate computed at the top of `HealthKitManager.fetchAndSync`:
on first sync (no anchor) restrict to samples starting within the last
`SyncConfig.backfillDays` days; once an anchor exists, no predicate.
`Calendar.current.date(byAdding: .day, value: -backfillDays, to: Date())`
is modelled as `now - backfillDays * 86400` epoch seconds. -/
def fetchPredicate (anchor : Option Nat) (now : Int) : Option Int :=
  match anchor with
  | none => some (now - SyncConfig.backfillDays * 86400)
  | some _ => none

/-- The environment of one client sync run: the outcome the server gives
each uploaded batch (`uploadOk b` = the HTTP response was 2xx, otherwise
`uploadErr b` is the thrown error's description), the current time, the
device identity, the assembly timestamp string, and whether the anchored
query itself throws. -/
structure ClientEnv where
  uploadOk : SyncBatch → Bool
  uploadErr : SyncBatch → String
  now : Int
  deviceId : String
  timestampStr : String
  queryFails : Bool

/-- The `SyncManager` state: its published fields, the in-memory upload
queue, and the `AnchorStore` per-type last-sync times. -/
structure ClientState where
  uploadQueue : List SyncBatch
  pendingBatches : Nat
  isProcessingQueue : Bool
  isSyncing : Bool
  lastSyncTime : Option Int
  lastError : Option String
  syncTimes : HealthDataType → Option Int

/-- One iteration of the `while !uploadQueue.isEmpty` loop in
`SyncManager.processQueue`: remove the first batch, publish the new queue
depth, try the upload; on success record the per-type last-sync time (when
the batch's dataType parses) and clear the error; on failure record the
error and continue — the failed batch is not re-queued (the source marks
re-queueing as a TODO and just logs). -/
def processOne (env : ClientEnv) (b : SyncBatch) (rest : List SyncBatch)
    (s : ClientState) : ClientState :=
  let s1 := { s with uploadQueue := rest, pendingBatches := rest.length }
  if env.uploadOk b then
    let s2 :=
      match HealthDataType.fromRaw b.dataType with
      | some t =>
        { s1 with syncTimes := fun t' => if t' = t then some env.now else s1.syncTimes t' }
      | none => s1
    { s2 with lastSyncTime := some env.now, lastError := none }
  else
    { s1 with lastError := some (env.uploadErr b) }

/-- The `while` loop of `processQueue`, with explicit fuel.  Each iteration
removes exactly one batch and never appends, so the loop terminates after
exactly the initial queue length; callers pass that length as fuel. -/
def processLoopFuel (env : ClientEnv) : Nat → ClientState → ClientState
  | 0, s => s
  | fuel + 1, s =>
    match s.uploadQueue with
    | [] => s
    | b :: rest => processLoopFuel env fuel (processOne env b rest s)

/-- `SyncManager.processQueue`: the re-entrancy guard, the busy flags, and
the drain loop.  (The trailing `refreshMaterializedView()` call is an
external HTTP side effect with no client-state effect.) -/
def processQueue (env : ClientEnv) (s : ClientState) : ClientState :=
  if s.isProcessingQueue then s
  else
    let s1 := processLoopFuel env s.uploadQueue.length
      { s with isProcessingQueue := true, isSyncing := true }
    { s1 with isProcessingQueue := false, isSyncing := false }

/-- `SyncManager.queueBatch`: append, publish the queue depth, and process
the queue if no processing run is active. -/
def queueBatch (env : ClientEnv) (b : SyncBatch) (s : ClientState) : ClientState :=
  let s1 := { s with uploadQueue := s.uploadQueue ++ [b],
                     pendingBatches := (s.uploadQueue ++ [b]).length }
  if !s1.isProcessingQueue then processQueue env s1 else s1

/-! ## Batch assembly (`HealthKitManager.syncData`) -/

/-- The chunking pattern of `syncData`'s
`for i in stride(from: 0, to: count, by: batchSize)` loop, with explicit
fuel: each step takes `B` elements and recurses on the rest.  Fuel is the
list length, which suffices whenever `0 < B`. -/
def chunksFuel (B : Nat) : Nat → List α → List (List α)
  | 0, _ => []
  | _, [] => []
  | fuel + 1, l => l.take B :: chunksFuel B fuel (l.drop B)

/-- Split a list into consecutive chunks of `B` elements (last chunk
possibly shorter), as the stride loop does. -/
def chunks (B : Nat) (l : List α) : List (List α) :=
  chunksFuel B l.length l

/-- The `i == 0 ? deletedUUIDs : []` pattern of `syncData`: the deletion
identifiers ride with the first chunk only. -/
def attachDeletions (del : List String) : List (List α) → List (List α × List String)
  | [] => []
  | c :: cs => (c, del) :: cs.map (fun c => (c, []))

/-- The record branch of `syncData`: chunk `allRecords` by
`SyncConfig.batchSize` and package each chunk as a `SyncBatch` with
`workouts: nil`, deletions on the first chunk only. -/
def syncDataRecords (ty : HealthDataType) (allRecords : List HealthRecordPayload)
    (del : List String) (dev ts : String) : List SyncBatch :=
  (attachDeletions del (chunks SyncConfig.batchSize allRecords)).map
    (fun cd => { dataType := ty.rawValue, records := some cd.1, workouts := none,
                 deletedUUIDs := cd.2, deviceId := dev, timestamp := ts })

/-- The workout branch of `syncData`: chunk `allWorkouts` the same way,
with `records: nil`. -/
def syncDataWorkouts (ty : HealthDataType) (allWorkouts : List WorkoutPayload)
    (del : List String) (dev ts : String) : List SyncBatch :=
  (attachDeletions del (chunks SyncConfig.batchSize allWorkouts)).map
    (fun cd => { dataType := ty.rawValue, records := none, workouts := some cd.1,
                 deletedUUIDs := cd.2, deviceId := dev, timestamp := ts })

/-- `HealthKitManager.syncData` as a batch producer: normalize the samples
for the type (`compactMap` with the per-kind cast, `shouldSync` filter for
workouts), then emit the record batches, else the workout batches, else a
single deletions-only batch. -/
def syncDataBatches (ty : HealthDataType) (samples : List Sample)
    (deletedUUIDs : List String) (dev ts : String) : List SyncBatch :=
  let allRecords : List HealthRecordPayload :=
    match ty with
    | .stepCount | .heartRate | .activeEnergyBurned | .bodyMass | .vo2Max =>
      samples.filterMap (fun s =>
        match s.data with
        | .quantity p => some p
        | _ => none)
    | .sleepAnalysis =>
      samples.filterMap (fun s =>
        match s.data with
        | .category p => some p
        | _ => none)
    | .workout => []
  let allWorkouts : List WorkoutPayload :=
    match ty with
    | .workout =>
      samples.filterMap (fun s =>
        match s.data with
        | .workout w ok => if ok then some w else none
        | _ => none)
    | _ => []
  if !allRecords.isEmpty then
    syncDataRecords ty allRecords deletedUUIDs dev ts
  else if !allWorkouts.isEmpty then
    syncDataWorkouts ty allWorkouts deletedUUIDs dev ts
  else if !deletedUUIDs.isEmpty then
    [{ dataType := ty.rawValue, records := none, workouts := none,
       deletedUUIDs := deletedUUIDs, deviceId := dev, timestamp := ts }]
  else []

/-- `syncData` end-to-end: queue each assembled batch in order (each
`await syncManager.queueBatch` completes, draining the queue, before the
next chunk is queued). -/
def syncDataRun (env : ClientEnv) (ty : HealthDataType) (samples : List Sample)
    (deletedUUIDs : List String) (cs : ClientState) : ClientState :=
  (syncDataBatches ty samples deletedUUIDs env.deviceId env.timestampStr).foldl
    (fun s b => queueBatch env b s) cs

/-! ## The fetch-and-sync cycle (`HealthKitManager.fetchAndSync`) -/

/-- The client-visible state of one fetch-and-sync cycle: the persisted
per-type anchors (`AnchorStore`), the per-type `typeStatuses[...].lastError`
fields, and the `SyncManager` state. -/
structure SyncState where
  anchors : HealthDataType → Option Nat
  typeLastError : HealthDataType → Option String
  client : ClientState

/-- `HealthKitManager.fetchAndSync(type:)`: read the anchor, build the
predicate (backfill window only when no anchor), run the anchored query;
if it throws, record the error and leave everything untouched; otherwise
sync the samples/deletions when any exist, then persist the returned
anchor unconditionally, then clear the type's error. -/
def fetchAndSync (env : ClientEnv) (store : HKStore) (ty : HealthDataType)
    (st : SyncState) : SyncState :=
  let anchor := st.anchors ty
  let predicateStart := fetchPredicate anchor env.now
  if env.queryFails then
    { st with typeLastError := fun t =>
        if t = ty then some "anchored query failed" else st.typeLastError t }
  else
    let res := anchoredQuery store anchor predicateStart
    let samples := res.1
    let deletedUUIDs := res.2.1
    let newAnchor := res.2.2
    let st1 :=
      if !samples.isEmpty || !deletedUUIDs.isEmpty then
        { st with client := syncDataRun env ty samples deletedUUIDs st.client }
      else st
    let st2 :=
      match newAnchor with
      | some a =>
        { st1 with anchors := fun t => if t = ty then some a else st1.anchors t }
      | none => st1
    { st2 with typeLastError := fun t => if t = ty then none else st2.typeLastError t }

end HealthSync

namespace HealthSync

/-! ## Concrete fixtures used by witnesses -/

/-- A concrete heart-rate record payload. -/
def rFix : HealthRecordPayload :=
  { recordType := "HKQuantityTypeIdentifierHeartRate"
    sourceName := "Apple Watch"
    sourceBundle := some "com.apple.health"
    value := some 72
    valueText := none
    unit := some "count/min"
    startTime := "2026-01-01T00:00:00Z"
    endTime := "2026-01-01T00:00:05Z"
    metadata := none }

/-- The same logical record with different metadata, unit and bundle. -/
def rFix' : HealthRecordPayload :=
  { rFix with
    sourceBundle := none
    unit := none
    valueText := some "ignored"
    metadata := some [("HKMetadataKeyHeartRateMotionContext", "1")] }

/-- A concrete workout payload. -/
def wFix : WorkoutPayload :=
  { workoutType := "HKWorkoutActivityTypeRunning"
    sourceName := "Apple Watch"
    sourceBundle := some "com.apple.health"
    startTime := "2026-01-02T07:00:00Z"
    endTime := "2026-01-02T07:30:00Z"
    durationSeconds := 1800
    totalDistance := some 3
    totalEnergyBurned := some 250
    statistics := some [("heartRateAvg", 150)]
    metadata := none }

/-- The same logical workout with different optional fields. -/
def wFix' : WorkoutPayload :=
  { wFix with
    sourceBundle := none
    totalDistance := none
    totalEnergyBurned := some 0
    statistics := none
    metadata := some [("HKIndoorWorkout", "0")] }

/-- A record payload whose INSERT the storage layer rejects in the
atomicity scenario. -/
def rBoom : HealthRecordPayload :=
  { rFix with recordType := "boom", startTime := "2026-01-01T01:00:00Z" }

/-- The failure oracle for the atomicity scenario: the storage layer
raises exactly on `rBoom`. -/
def qfailBoom : HealthRecordPayload → Bool :=
  fun r => r.recordType == "boom"

/-- An empty store. -/
def dbFix : DB := { healthRaw := [], workouts := [] }

/-- A concrete record batch. -/
def batchFix : SyncBatch :=
  { dataType := "HKQuantityTypeIdentifierHeartRate"
    records := some [rFix]
    workouts := none
    deletedUUIDs := []
    deviceId := "device-1"
    timestamp := "2026-01-03T00:00:00Z" }

/-- A batch containing a good record and the rejected record. -/
def batchBoom : SyncBatch :=
  { batchFix with records := some [rFix, rBoom] }

/-- An idle SyncManager state. -/
def idleClient : ClientState :=
  { uploadQueue := []
    pendingBatches := 0
    isProcessingQueue := false
    isSyncing := false
    lastSyncTime := none
    lastError := none
    syncTimes := fun _ => none }

/-- A batch whose upload the scenario server accepts. -/
def bOkFix : SyncBatch :=
  { batchFix with dataType := "HKQuantityTypeIdentifierStepCount" }

/-- A batch whose upload the scenario server rejects. -/
def bBadFix : SyncBatch :=
  { batchFix with dataType := "HKQuantityTypeIdentifierHeartRate" }

/-- A client environment in which exactly the step-count batch uploads
successfully. -/
def envFix : ClientEnv :=
  { uploadOk := fun b => b.dataType == "HKQuantityTypeIdentifierStepCount"
    uploadErr := fun _ => "Server error (500)"
    now := 1700000000
    deviceId := "device-1"
    timestampStr := "2026-01-03T00:00:00Z"
    queryFails := false }

/-- A SyncManager state with one succeeding and one failing batch queued. -/
def csFix : ClientState :=
  { idleClient with uploadQueue := [bOkFix, bBadFix], pendingBatches := 2 }

/-- An old sample (outside every backfill window of interest). -/
def sampleOld : Sample :=
  { data := .quantity rFix, startDate := 100, seq := 1 }

/-- A recent sample. -/
def sampleNew : Sample :=
  { data := .quantity rFix, startDate := 1700000000, seq := 2 }

/-- A HealthKit store holding one old and one recent sample. -/
def storeFix : HKStore :=
  { samples := [sampleOld, sampleNew], deleted := [] }

/-- A client environment in which every upload fails. -/
def envC1 : ClientEnv :=
  { envFix with uploadOk := fun _ => false }

/-- A store whose anchored query (from anchor 3) returns one new sample
and the new anchor 5. -/
def storeC1 : HKStore :=
  { samples := [{ data := .quantity rFix, startDate := 1699999000, seq := 5 }]
    deleted := [] }

/-- A sync state whose heart-rate anchor is 3, with an idle upload queue. -/
def stC1 : SyncState :=
  { anchors := fun t => if t = HealthDataType.heartRate then some 3 else none
    typeLastError := fun _ => none
    client := idleClient }

end HealthSync

namespace HealthSync

/-! ## Server-side theorems -/

/-- Claim C4: a request whose Authorization header is missing, not a
Bearer token, or carries a wrong secret is answered with the unauthorized
error and leaves the store untouched — no processing happens before the
credential check succeeds. -/
theorem auth_first_ingestion (qfail : HealthRecordPayload → Bool)
    (wfail : WorkoutPayload → Bool) (secret : String)
    (authHeader : Option String) (db : DB) (batch : SyncBatch)
    (h : authHeader = none ∨
      ∃ s, authHeader = some s ∧
        (jsStartsWith s "Bearer " = false ∨ jsSlice s 7 ≠ secret)) :
    POST qfail wfail secret authHeader db batch = (db, .unauthorized) := by
  have hfalse : authOk secret authHeader = false := by
    rcases h with rfl | ⟨s, rfl, hs | hs⟩
    · rfl
    · simp [authOk, hs]
    · simp [authOk, hs]
  simp [POST, hfalse]

/-- Witness for C4 at a malformed (non-Bearer) header. -/
theorem auth_first_ingestion_witness :
    ((some "Token abc" : Option String) = none ∨
      ∃ s, (some "Token abc" : Option String) = some s ∧
        (jsStartsWith s "Bearer " = false ∨ jsSlice s 7 ≠ "s3cr3t")) ∧
    POST (fun _ => false) (fun _ => false) "s3cr3t" (some "Token abc") dbFix batchFix
      = (dbFix, .unauthorized) :=
  ⟨Or.inr ⟨"Token abc", rfl, Or.inl (by decide)⟩,
   auth_first_ingestion _ _ _ _ _ _
     (Or.inr ⟨"Token abc", rfl, Or.inl (by decide)⟩)⟩

/-- Claim C5: the content hash is determined by (recordType, sourceName,
startTime, endTime, value-or-valueText) for records, and by (workoutType,
sourceName, startTime, endTime, durationSeconds) for workouts; metadata,
unit, sourceBundle and all other fields are irrelevant. -/
theorem hash_determinism :
    (∀ r1 r2 : HealthRecordPayload,
      r1.recordType = r2.recordType →
      r1.sourceName = r2.sourceName →
      r1.startTime = r2.startTime →
      r1.endTime = r2.endTime →
      jsInterp r1.value r1.valueText = jsInterp r2.value r2.valueText →
      generateRecordHash r1 = generateRecordHash r2) ∧
    (∀ w1 w2 : WorkoutPayload,
      w1.workoutType = w2.workoutType →
      w1.sourceName = w2.sourceName →
      w1.startTime = w2.startTime →
      w1.endTime = w2.endTime →
      w1.durationSeconds = w2.durationSeconds →
      generateWorkoutHash w1 = generateWorkoutHash w2) := by
  constructor
  · intro r1 r2 h1 h2 h3 h4 h5
    simp [generateRecordHash, recordKey, sha256hex, h1, h2, h3, h4, h5]
  · intro w1 w2 h1 h2 h3 h4 h5
    simp [generateWorkoutHash, workoutKey, sha256hex, h1, h2, h3, h4, h5]

/-- Witness for C5: payload pairs that differ only in metadata, unit,
bundle and other non-identity fields hash identically. -/
theorem hash_determinism_witness :
    jsInterp rFix.value rFix.valueText = jsInterp rFix'.value rFix'.valueText ∧
    generateRecordHash rFix = generateRecordHash rFix' ∧
    generateWorkoutHash wFix = generateWorkoutHash wFix' :=
  ⟨rfl,
   hash_determinism.1 rFix rFix' rfl rfl rfl rfl rfl,
   hash_determinism.2 wFix wFix' rfl rfl rfl rfl rfl⟩

/-- Claim C10: the stored unit columns are derived from JavaScript
truthiness of the numeric fields, so a zero totalDistance (resp.
totalEnergyBurned) stores NULL exactly like an absent one, while any
non-zero value stores "mi" (resp. "kcal"). -/
theorem unit_columns_truthiness (w : WorkoutPayload) :
    ((workoutRow { w with totalDistance := some 0 }).total_distance_unit = none) ∧
    ((workoutRow { w with totalDistance := none }).total_distance_unit = none) ∧
    (∀ v : Int, v ≠ 0 →
      (workoutRow { w with totalDistance := some v }).total_distance_unit = some "mi") ∧
    ((workoutRow { w with totalEnergyBurned := some 0 }).total_energy_unit = none) ∧
    ((workoutRow { w with totalEnergyBurned := none }).total_energy_unit = none) ∧
    (∀ v : Int, v ≠ 0 →
      (workoutRow { w with totalEnergyBurned := some v }).total_energy_unit = some "kcal") := by
  exact ⟨by simp [workoutRow, jsTruthy],
         by simp [workoutRow, jsTruthy],
         fun v hv => by simp [workoutRow, jsTruthy, hv],
         by simp [workoutRow, jsTruthy],
         by simp [workoutRow, jsTruthy],
         fun v hv => by simp [workoutRow, jsTruthy, hv]⟩

/-- Witness for C10 at a concrete workout and the non-zero value 3. -/
theorem unit_columns_truthiness_witness :
    ((workoutRow { wFix with totalDistance := some 0 }).total_distance_unit = none) ∧
    ((3 : Int) ≠ 0 ∧
      (workoutRow { wFix with totalDistance := some 3 }).total_distance_unit = some "mi") ∧
    (workoutRow { wFix with totalEnergyBurned := some 0 }).total_energy_unit = none :=
  ⟨(unit_columns_truthiness wFix).1,
   ⟨by decide, (unit_columns_truthiness wFix).2.2.1 3 (by decide)⟩,
   (unit_columns_truthiness wFix).2.2.2.1⟩

end HealthSync

namespace HealthSync

/-! ## Supporting lemmas about the ingestion loops -/

theorem any_record_hash_iff (db : DB) (hsh : String) :
    (db.healthRaw.any fun x => x.record_hash == hsh) = true ↔ hsh ∈ recHashes db := by
  simp only [List.any_eq_true, beq_iff_eq, recHashes, List.mem_map]

theorem any_workout_hash_iff (db : DB) (hsh : String) :
    (db.workouts.any fun x => x.workout_hash == hsh) = true ↔ hsh ∈ wkHashes db := by
  simp only [List.any_eq_true, beq_iff_eq, wkHashes, List.mem_map]

theorem insertRecordQuery_frame (qfail : HealthRecordPayload → Bool)
    (r : HealthRecordPayload) (db db1 : DB) (n : Nat)
    (h : insertRecordQuery qfail db r = .ok (db1, n)) :
    (∃ ext, db1.healthRaw = db.healthRaw ++ ext) ∧
      db1.workouts = db.workouts ∧
      generateRecordHash r ∈ recHashes db1 := by
  simp only [insertRecordQuery] at h
  by_cases hf : qfail r = true
  · rw [if_pos hf] at h
    exact Except.noConfusion h
  · rw [if_neg hf] at h
    by_cases hdup : (db.healthRaw.any fun x =>
        x.record_hash == (recordRow r).record_hash) = true
    · rw [if_pos hdup] at h
      obtain ⟨rfl, rfl⟩ : db = db1 ∧ 0 = n := by
        simpa [Prod.ext_iff] using Except.ok.inj h
      refine ⟨⟨[], by simp⟩, rfl, ?_⟩
      have := (any_record_hash_iff db (recordRow r).record_hash).1 hdup
      simpa [recordRow] using this
    · rw [if_neg hdup] at h
      obtain ⟨hdb, rfl⟩ :
          { db with healthRaw := db.healthRaw ++ [recordRow r] } = db1 ∧ 1 = n := by
        simpa [Prod.ext_iff] using Except.ok.inj h
      subst hdb
      refine ⟨⟨[recordRow r], rfl⟩, rfl, ?_⟩
      simp [recHashes, recordRow]

theorem insertWorkoutQuery_frame (wfail : WorkoutPayload → Bool)
    (w : WorkoutPayload) (db db1 : DB) (n : Nat)
    (h : insertWorkoutQuery wfail db w = .ok (db1, n)) :
    (∃ ext, db1.workouts = db.workouts ++ ext) ∧
      db1.healthRaw = db.healthRaw ∧
      generateWorkoutHash w ∈ wkHashes db1 := by
  simp only [insertWorkoutQuery] at h
  by_cases hf : wfail w = true
  · rw [if_pos hf] at h
    exact Except.noConfusion h
  · rw [if_neg hf] at h
    by_cases hdup : (db.workouts.any fun x =>
        x.workout_hash == (workoutRow w).workout_hash) = true
    · rw [if_pos hdup] at h
      obtain ⟨rfl, rfl⟩ : db = db1 ∧ 0 = n := by
        simpa [Prod.ext_iff] using Except.ok.inj h
      refine ⟨⟨[], by simp⟩, rfl, ?_⟩
      have := (any_workout_hash_iff db (workoutRow w).workout_hash).1 hdup
      simpa [workoutRow] using this
    · rw [if_neg hdup] at h
      obtain ⟨hdb, rfl⟩ :
          { db with workouts := db.workouts ++ [workoutRow w] } = db1 ∧ 1 = n := by
        simpa [Prod.ext_iff] using Except.ok.inj h
      subst hdb
      refine ⟨⟨[workoutRow w], rfl⟩, rfl, ?_⟩
      simp [wkHashes, workoutRow]

theorem recHashes_mono_of_append {db db' : DB} (ext : List HealthRow)
    (he : db'.healthRaw = db.healthRaw ++ ext) :
    recHashes db ⊆ recHashes db' := by
  intro a ha
  simp only [recHashes, List.mem_map] at ha ⊢
  obtain ⟨row, hrow, rfl⟩ := ha
  exact ⟨row, by rw [he]; exact List.mem_append_left _ hrow, rfl⟩

theorem wkHashes_mono_of_append {db db' : DB} (ext : List WorkoutRow)
    (he : db'.workouts = db.workouts ++ ext) :
    wkHashes db ⊆ wkHashes db' := by
  intro a ha
  simp only [wkHashes, List.mem_map] at ha ⊢
  obtain ⟨row, hrow, rfl⟩ := ha
  exact ⟨row, by rw [he]; exact List.mem_append_left _ hrow, rfl⟩

theorem processRecordList_frame (qfail : HealthRecordPayload → Bool) :
    ∀ (rs : List HealthRecordPayload) (db db' : DB) (i s : Nat),
      processRecordList qfail db rs = .ok (db', i, s) →
      (∃ ext, db'.healthRaw = db.healthRaw ++ ext) ∧
        db'.workouts = db.workouts ∧
        ∀ r ∈ rs, generateRecordHash r ∈ recHashes db' := by
  intro rs
  induction rs with
  | nil =>
    intro db db' i s h
    obtain ⟨rfl, rfl, rfl⟩ : db = db' ∧ 0 = i ∧ 0 = s := by
      simpa [processRecordList, Prod.ext_iff] using h
    exact ⟨⟨[], by simp⟩, rfl, by simp⟩
  | cons r rs ih =>
    intro db db' i s h
    rw [processRecordList] at h
    split at h
    · exact Except.noConfusion h
    · rename_i db1 n hq
      split at h
      · exact Except.noConfusion h
      · rename_i db2 i2 s2 hr
        have hdb2 : db2 = db' := by
          split at h
          · exact congrArg Prod.fst (Except.ok.inj h)
          · exact congrArg Prod.fst (Except.ok.inj h)
        subst hdb2
        obtain ⟨⟨e1, he1⟩, hw1, hm1⟩ := insertRecordQuery_frame qfail r db db1 n hq
        obtain ⟨⟨e2, he2⟩, hw2, hm2⟩ := ih db1 db2 i2 s2 hr
        refine ⟨⟨e1 ++ e2, by rw [he2, he1, List.append_assoc]⟩, by rw [hw2, hw1], ?_⟩
        intro x hx
        rcases List.mem_cons.mp hx with rfl | hx'
        · exact recHashes_mono_of_append e2 he2 hm1
        · exact hm2 x hx'

theorem processWorkoutList_frame (wfail : WorkoutPayload → Bool) :
    ∀ (ws : List WorkoutPayload) (db db' : DB) (i s : Nat),
      processWorkoutList wfail db ws = .ok (db', i, s) →
      (∃ ext, db'.workouts = db.workouts ++ ext) ∧
        db'.healthRaw = db.healthRaw ∧
        ∀ w ∈ ws, generateWorkoutHash w ∈ wkHashes db' := by
  intro ws
  induction ws with
  | nil =>
    intro db db' i s h
    obtain ⟨rfl, rfl, rfl⟩ : db = db' ∧ 0 = i ∧ 0 = s := by
      simpa [processWorkoutList, Prod.ext_iff] using h
    exact ⟨⟨[], by simp⟩, rfl, by simp⟩
  | cons w ws ih =>
    intro db db' i s h
    rw [processWorkoutList] at h
    split at h
    · exact Except.noConfusion h
    · rename_i db1 n hq
      split at h
      · exact Except.noConfusion h
      · rename_i db2 i2 s2 hr
        have hdb2 : db2 = db' := by
          split at h
          · exact congrArg Prod.fst (Except.ok.inj h)
          · exact congrArg Prod.fst (Except.ok.inj h)
        subst hdb2
        obtain ⟨⟨e1, he1⟩, hw1, hm1⟩ := insertWorkoutQuery_frame wfail w db db1 n hq
        obtain ⟨⟨e2, he2⟩, hw2, hm2⟩ := ih db1 db2 i2 s2 hr
        refine ⟨⟨e1 ++ e2, by rw [he2, he1, List.append_assoc]⟩, by rw [hw2, hw1], ?_⟩
        intro x hx
        rcases List.mem_cons.mp hx with rfl | hx'
        · exact wkHashes_mono_of_append e2 he2 hm1
        · exact hm2 x hx'

theorem processRecordList_cons_ok (qfail : HealthRecordPayload → Bool)
    {db : DB} {r : HealthRecordPayload} {db1 : DB} {n : Nat}
    (rs : List HealthRecordPayload)
    (hq : insertRecordQuery qfail db r = .ok (db1, n)) :
    processRecordList qfail db (r :: rs) =
      match processRecordList qfail db1 rs with
      | .error e => .error e
      | .ok (db2, i, s) =>
        if n > 0 then .ok (db2, i + 1, s) else .ok (db2, i, s + 1) := by
  rw [processRecordList, hq]

theorem processRecordList_cons_err (qfail : HealthRecordPayload → Bool)
    {db : DB} {r : HealthRecordPayload} {e : String}
    (rs : List HealthRecordPayload)
    (hq : insertRecordQuery qfail db r = .error e) :
    processRecordList qfail db (r :: rs) = .error e := by
  rw [processRecordList, hq]

theorem processWorkoutList_cons_ok (wfail : WorkoutPayload → Bool)
    {db : DB} {w : WorkoutPayload} {db1 : DB} {n : Nat}
    (ws : List WorkoutPayload)
    (hq : insertWorkoutQuery wfail db w = .ok (db1, n)) :
    processWorkoutList wfail db (w :: ws) =
      match processWorkoutList wfail db1 ws with
      | .error e => .error e
      | .ok (db2, i, s) =>
        if n > 0 then .ok (db2, i + 1, s) else .ok (db2, i, s + 1) := by
  rw [processWorkoutList, hq]

theorem processWorkoutList_cons_err (wfail : WorkoutPayload → Bool)
    {db : DB} {w : WorkoutPayload} {e : String}
    (ws : List WorkoutPayload)
    (hq : insertWorkoutQuery wfail db w = .error e) :
    processWorkoutList wfail db (w :: ws) = .error e := by
  rw [processWorkoutList, hq]

theorem insertRecordQuery_nofail (db : DB) (r : HealthRecordPayload) :
    ∃ db1 n, insertRecordQuery (fun _ => false) db r = .ok (db1, n) := by
  unfold insertRecordQuery
  by_cases hdup : (db.healthRaw.any fun x =>
      x.record_hash == (recordRow r).record_hash) = true
  · exact ⟨db, 0, by simp [hdup]⟩
  · exact ⟨{ db with healthRaw := db.healthRaw ++ [recordRow r] }, 1, by simp [hdup]⟩

theorem insertWorkoutQuery_nofail (db : DB) (w : WorkoutPayload) :
    ∃ db1 n, insertWorkoutQuery (fun _ => false) db w = .ok (db1, n) := by
  unfold insertWorkoutQuery
  by_cases hdup : (db.workouts.any fun x =>
      x.workout_hash == (workoutRow w).workout_hash) = true
  · exact ⟨db, 0, by simp [hdup]⟩
  · exact ⟨{ db with workouts := db.workouts ++ [workoutRow w] }, 1, by simp [hdup]⟩

theorem processRecordList_nofail :
    ∀ (rs : List HealthRecordPayload) (db : DB),
      ∃ db' i s, processRecordList (fun _ => false) db rs = .ok (db', i, s) := by
  intro rs
  induction rs with
  | nil => exact fun db => ⟨db, 0, 0, rfl⟩
  | cons r rs ih =>
    intro db
    obtain ⟨db1, n, hq⟩ := insertRecordQuery_nofail db r
    obtain ⟨db2, i2, s2, hr⟩ := ih db1
    by_cases hn : n > 0
    · exact ⟨db2, i2 + 1, s2, by rw [processRecordList_cons_ok _ rs hq, hr]; simp [hn]⟩
    · exact ⟨db2, i2, s2 + 1, by rw [processRecordList_cons_ok _ rs hq, hr]; simp [hn]⟩

theorem processWorkoutList_nofail :
    ∀ (ws : List WorkoutPayload) (db : DB),
      ∃ db' i s, processWorkoutList (fun _ => false) db ws = .ok (db', i, s) := by
  intro ws
  induction ws with
  | nil => exact fun db => ⟨db, 0, 0, rfl⟩
  | cons w ws ih =>
    intro db
    obtain ⟨db1, n, hq⟩ := insertWorkoutQuery_nofail db w
    obtain ⟨db2, i2, s2, hr⟩ := ih db1
    by_cases hn : n > 0
    · exact ⟨db2, i2 + 1, s2, by rw [processWorkoutList_cons_ok _ ws hq, hr]; simp [hn]⟩
    · exact ⟨db2, i2, s2 + 1, by rw [processWorkoutList_cons_ok _ ws hq, hr]; simp [hn]⟩

theorem insertRecordQuery_dup {db : DB} {r : HealthRecordPayload}
    (hmem : generateRecordHash r ∈ recHashes db) :
    insertRecordQuery (fun _ => false) db r = .ok (db, 0) := by
  unfold insertRecordQuery
  have hdup : (db.healthRaw.any fun x =>
      x.record_hash == (recordRow r).record_hash) = true :=
    (any_record_hash_iff db _).2 (by simpa [recordRow] using hmem)
  simp [hdup]

theorem insertWorkoutQuery_dup {db : DB} {w : WorkoutPayload}
    (hmem : generateWorkoutHash w ∈ wkHashes db) :
    insertWorkoutQuery (fun _ => false) db w = .ok (db, 0) := by
  unfold insertWorkoutQuery
  have hdup : (db.workouts.any fun x =>
      x.workout_hash == (workoutRow w).workout_hash) = true :=
    (any_workout_hash_iff db _).2 (by simpa [workoutRow] using hmem)
  simp [hdup]

theorem processRecordList_dup :
    ∀ (rs : List HealthRecordPayload) (db : DB),
      (∀ r ∈ rs, generateRecordHash r ∈ recHashes db) →
      processRecordList (fun _ => false) db rs = .ok (db, 0, rs.length) := by
  intro rs
  induction rs with
  | nil => exact fun db _ => rfl
  | cons r rs ih =>
    intro db h
    have hq := insertRecordQuery_dup (h r (List.mem_cons_self r rs))
    rw [processRecordList_cons_ok _ rs hq,
        ih db (fun x hx => h x (List.mem_cons_of_mem _ hx))]
    rfl

theorem processWorkoutList_dup :
    ∀ (ws : List WorkoutPayload) (db : DB),
      (∀ w ∈ ws, generateWorkoutHash w ∈ wkHashes db) →
      processWorkoutList (fun _ => false) db ws = .ok (db, 0, ws.length) := by
  intro ws
  induction ws with
  | nil => exact fun db _ => rfl
  | cons w ws ih =>
    intro db h
    have hq := insertWorkoutQuery_dup (h w (List.mem_cons_self w ws))
    rw [processWorkoutList_cons_ok _ ws hq,
        ih db (fun x hx => h x (List.mem_cons_of_mem _ hx))]
    rfl

theorem insertRecordQuery_err (qfail : HealthRecordPayload → Bool)
    {r : HealthRecordPayload} (db : DB) (hf : qfail r = true) :
    insertRecordQuery qfail db r = .error "storage failure" := by
  unfold insertRecordQuery
  simp [hf]

theorem insertWorkoutQuery_err (wfail : WorkoutPayload → Bool)
    {w : WorkoutPayload} (db : DB) (hf : wfail w = true) :
    insertWorkoutQuery wfail db w = .error "storage failure" := by
  unfold insertWorkoutQuery
  simp [hf]

theorem insertRecordQuery_err_shape (qfail : HealthRecordPayload → Bool)
    {r : HealthRecordPayload} {db : DB} {e : String}
    (h : insertRecordQuery qfail db r = .error e) : e = "storage failure" := by
  unfold insertRecordQuery at h
  by_cases hf : qfail r = true
  · rw [if_pos hf] at h
    exact (Except.error.inj h).symm
  · rw [if_neg hf] at h
    by_cases hdup : (db.healthRaw.any fun x =>
        x.record_hash == (recordRow r).record_hash) = true
    · rw [if_pos hdup] at h
      exact Except.noConfusion h
    · rw [if_neg hdup] at h
      exact Except.noConfusion h

theorem insertWorkoutQuery_err_shape (wfail : WorkoutPayload → Bool)
    {w : WorkoutPayload} {db : DB} {e : String}
    (h : insertWorkoutQuery wfail db w = .error e) : e = "storage failure" := by
  unfold insertWorkoutQuery at h
  by_cases hf : wfail w = true
  · rw [if_pos hf] at h
    exact (Except.error.inj h).symm
  · rw [if_neg hf] at h
    by_cases hdup : (db.workouts.any fun x =>
        x.workout_hash == (workoutRow w).workout_hash) = true
    · rw [if_pos hdup] at h
      exact Except.noConfusion h
    · rw [if_neg hdup] at h
      exact Except.noConfusion h

theorem processRecordList_err (qfail : HealthRecordPayload → Bool) :
    ∀ (rs : List HealthRecordPayload) (db : DB),
      (∃ r ∈ rs, qfail r = true) →
      processRecordList qfail db rs = .error "storage failure" := by
  intro rs
  induction rs with
  | nil => rintro db ⟨r, hr, -⟩; cases hr
  | cons r rs ih =>
    rintro db ⟨x, hx, hqx⟩
    rcases List.mem_cons.mp hx with rfl | hx'
    · exact processRecordList_cons_err _ rs (insertRecordQuery_err qfail db hqx)
    · cases hq : insertRecordQuery qfail db r with
      | error e =>
        rw [processRecordList_cons_err _ rs hq,
            insertRecordQuery_err_shape qfail hq]
      | ok p =>
        obtain ⟨db1, n⟩ := p
        rw [processRecordList_cons_ok _ rs hq, ih db1 ⟨x, hx', hqx⟩]

theorem processWorkoutList_err (wfail : WorkoutPayload → Bool) :
    ∀ (ws : List WorkoutPayload) (db : DB),
      (∃ w ∈ ws, wfail w = true) →
      processWorkoutList wfail db ws = .error "storage failure" := by
  intro ws
  induction ws with
  | nil => rintro db ⟨w, hw, -⟩; cases hw
  | cons w ws ih =>
    rintro db ⟨x, hx, hqx⟩
    rcases List.mem_cons.mp hx with rfl | hx'
    · exact processWorkoutList_cons_err _ ws (insertWorkoutQuery_err wfail db hqx)
    · cases hq : insertWorkoutQuery wfail db w with
      | error e =>
        rw [processWorkoutList_cons_err _ ws hq,
            insertWorkoutQuery_err_shape wfail hq]
      | ok p =>
        obtain ⟨db1, n⟩ := p
        rw [processWorkoutList_cons_ok _ ws hq, ih db1 ⟨x, hx', hqx⟩]

theorem processRecordList_shape (qfail : HealthRecordPayload → Bool) :
    ∀ (rs : List HealthRecordPayload) (db : DB),
      (∃ v, processRecordList qfail db rs = .ok v) ∨
        processRecordList qfail db rs = .error "storage failure" := by
  intro rs
  induction rs with
  | nil => exact fun db => Or.inl ⟨(db, 0, 0), rfl⟩
  | cons r rs ih =>
    intro db
    cases hq : insertRecordQuery qfail db r with
    | error e =>
      right
      rw [processRecordList_cons_err _ rs hq,
          insertRecordQuery_err_shape qfail hq]
    | ok p =>
      obtain ⟨db1, n⟩ := p
      rcases ih db1 with ⟨⟨db2, i2, s2⟩, hr⟩ | hr
      · left
        by_cases hn : n > 0
        · exact ⟨(db2, i2 + 1, s2), by rw [processRecordList_cons_ok _ rs hq, hr]; simp [hn]⟩
        · exact ⟨(db2, i2, s2 + 1), by rw [processRecordList_cons_ok _ rs hq, hr]; simp [hn]⟩
      · right
        rw [processRecordList_cons_ok _ rs hq, hr]

theorem recordsStep_frame (qfail : HealthRecordPayload → Bool)
    (rcds : Option (List HealthRecordPayload)) (db db' : DB) (i s : Nat)
    (h : recordsStep qfail db rcds = .ok (db', i, s)) :
    (∃ ext, db'.healthRaw = db.healthRaw ++ ext) ∧
      db'.workouts = db.workouts ∧
      ∀ r ∈ rcds.getD [], generateRecordHash r ∈ recHashes db' := by
  cases rcds with
  | none =>
    obtain ⟨rfl, -, -⟩ : db = db' ∧ 0 = i ∧ 0 = s := by
      simpa [recordsStep, Prod.ext_iff] using h
    exact ⟨⟨[], by simp⟩, rfl, by simp⟩
  | some rs =>
    rw [recordsStep] at h
    by_cases hl : rs.length > 0
    · rw [if_pos hl] at h
      exact processRecordList_frame qfail rs db db' i s h
    · rw [if_neg hl] at h
      obtain ⟨rfl, -, -⟩ : db = db' ∧ 0 = i ∧ 0 = s := by
        simpa [Prod.ext_iff] using h
      have : rs = [] := List.length_eq_zero.mp (Nat.eq_zero_of_not_pos hl)
      subst this
      exact ⟨⟨[], by simp⟩, rfl, by simp⟩

theorem workoutsStep_frame (wfail : WorkoutPayload → Bool)
    (wkts : Option (List WorkoutPayload)) (db db' : DB) (i s : Nat)
    (h : workoutsStep wfail db wkts = .ok (db', i, s)) :
    (∃ ext, db'.workouts = db.workouts ++ ext) ∧
      db'.healthRaw = db.healthRaw ∧
      ∀ w ∈ wkts.getD [], generateWorkoutHash w ∈ wkHashes db' := by
  cases wkts with
  | none =>
    obtain ⟨rfl, -, -⟩ : db = db' ∧ 0 = i ∧ 0 = s := by
      simpa [workoutsStep, Prod.ext_iff] using h
    exact ⟨⟨[], by simp⟩, rfl, by simp⟩
  | some ws =>
    rw [workoutsStep] at h
    by_cases hl : ws.length > 0
    · rw [if_pos hl] at h
      exact processWorkoutList_frame wfail ws db db' i s h
    · rw [if_neg hl] at h
      obtain ⟨rfl, -, -⟩ : db = db' ∧ 0 = i ∧ 0 = s := by
        simpa [Prod.ext_iff] using h
      have : ws = [] := List.length_eq_zero.mp (Nat.eq_zero_of_not_pos hl)
      subst this
      exact ⟨⟨[], by simp⟩, rfl, by simp⟩

theorem recordsStep_nofail (db : DB) (rcds : Option (List HealthRecordPayload)) :
    ∃ db' i s, recordsStep (fun _ => false) db rcds = .ok (db', i, s) := by
  cases rcds with
  | none => exact ⟨db, 0, 0, rfl⟩
  | some rs =>
    by_cases hl : rs.length > 0
    · obtain ⟨db', i, s, h⟩ := processRecordList_nofail rs db
      exact ⟨db', i, s, by rw [recordsStep, if_pos hl]; exact h⟩
    · exact ⟨db, 0, 0, by rw [recordsStep, if_neg hl]⟩

theorem workoutsStep_nofail (db : DB) (wkts : Option (List WorkoutPayload)) :
    ∃ db' i s, workoutsStep (fun _ => false) db wkts = .ok (db', i, s) := by
  cases wkts with
  | none => exact ⟨db, 0, 0, rfl⟩
  | some ws =>
    by_cases hl : ws.length > 0
    · obtain ⟨db', i, s, h⟩ := processWorkoutList_nofail ws db
      exact ⟨db', i, s, by rw [workoutsStep, if_pos hl]; exact h⟩
    · exact ⟨db, 0, 0, by rw [workoutsStep, if_neg hl]⟩

theorem recordsStep_dup (db : DB) (rcds : Option (List HealthRecordPayload))
    (hmem : ∀ r ∈ rcds.getD [], generateRecordHash r ∈ recHashes db) :
    recordsStep (fun _ => false) db rcds = .ok (db, 0, (rcds.getD []).length) := by
  cases rcds with
  | none => rfl
  | some rs =>
    by_cases hl : rs.length > 0
    · rw [recordsStep, if_pos hl]
      exact processRecordList_dup rs db (by simpa using hmem)
    · have : rs = [] := List.length_eq_zero.mp (Nat.eq_zero_of_not_pos hl)
      subst this
      rfl

theorem workoutsStep_dup (db : DB) (wkts : Option (List WorkoutPayload))
    (hmem : ∀ w ∈ wkts.getD [], generateWorkoutHash w ∈ wkHashes db) :
    workoutsStep (fun _ => false) db wkts = .ok (db, 0, (wkts.getD []).length) := by
  cases wkts with
  | none => rfl
  | some ws =>
    by_cases hl : ws.length > 0
    · rw [workoutsStep, if_pos hl]
      exact processWorkoutList_dup ws db (by simpa using hmem)
    · have : ws = [] := List.length_eq_zero.mp (Nat.eq_zero_of_not_pos hl)
      subst this
      rfl

theorem recordsStep_err (qfail : HealthRecordPayload → Bool) (db : DB)
    (rcds : Option (List HealthRecordPayload))
    (hex : ∃ r ∈ rcds.getD [], qfail r = true) :
    recordsStep qfail db rcds = .error "storage failure" := by
  cases rcds with
  | none => simp at hex
  | some rs =>
    obtain ⟨r, hr, hqr⟩ := hex
    have hr' : r ∈ rs := by simpa using hr
    have hl : rs.length > 0 := List.length_pos.mpr (List.ne_nil_of_mem hr')
    rw [recordsStep, if_pos hl]
    exact processRecordList_err qfail rs db ⟨r, hr', hqr⟩

theorem workoutsStep_err (wfail : WorkoutPayload → Bool) (db : DB)
    (wkts : Option (List WorkoutPayload))
    (hex : ∃ w ∈ wkts.getD [], wfail w = true) :
    workoutsStep wfail db wkts = .error "storage failure" := by
  cases wkts with
  | none => simp at hex
  | some ws =>
    obtain ⟨w, hw, hqw⟩ := hex
    have hw' : w ∈ ws := by simpa using hw
    have hl : ws.length > 0 := List.length_pos.mpr (List.ne_nil_of_mem hw')
    rw [workoutsStep, if_pos hl]
    exact processWorkoutList_err wfail ws db ⟨w, hw', hqw⟩

theorem recordsStep_shape (qfail : HealthRecordPayload → Bool) (db : DB)
    (rcds : Option (List HealthRecordPayload)) :
    (∃ v, recordsStep qfail db rcds = .ok v) ∨
      recordsStep qfail db rcds = .error "storage failure" := by
  cases rcds with
  | none => exact Or.inl ⟨(db, 0, 0), rfl⟩
  | some rs =>
    by_cases hl : rs.length > 0
    · rcases processRecordList_shape qfail rs db with ⟨v, hv⟩ | hv
      · exact Or.inl ⟨v, by rw [recordsStep, if_pos hl]; exact hv⟩
      · exact Or.inr (by rw [recordsStep, if_pos hl]; exact hv)
    · exact Or.inl ⟨(db, 0, 0), by rw [recordsStep, if_neg hl]⟩

theorem processBatch_ok (qfail : HealthRecordPayload → Bool)
    (wfail : WorkoutPayload → Bool) (db : DB) (batch : SyncBatch)
    {db1 : DB} {ir s1 : Nat}
    (h1 : recordsStep qfail db batch.records = .ok (db1, ir, s1)) :
    processBatch qfail wfail db batch =
      match workoutsStep wfail db1 batch.workouts with
      | .error e => .error e
      | .ok (db2, iw, s2) => .ok (db2, ⟨ir, iw, s1 + s2⟩) := by
  rw [processBatch, h1]

theorem processBatch_err1 (qfail : HealthRecordPayload → Bool)
    (wfail : WorkoutPayload → Bool) (db : DB) (batch : SyncBatch) {e : String}
    (h1 : recordsStep qfail db batch.records = .error e) :
    processBatch qfail wfail db batch = .error e := by
  rw [processBatch, h1]

theorem processBatch_nofail_props (db : DB) (batch : SyncBatch) :
    ∃ db' c, processBatch (fun _ => false) (fun _ => false) db batch = .ok (db', c) ∧
      (∀ r ∈ batch.records.getD [], generateRecordHash r ∈ recHashes db') ∧
      (∀ w ∈ batch.workouts.getD [], generateWorkoutHash w ∈ wkHashes db') := by
  obtain ⟨db1, i1, s1, h1⟩ := recordsStep_nofail db batch.records
  obtain ⟨-, -, hm1⟩ := recordsStep_frame _ batch.records db db1 i1 s1 h1
  obtain ⟨db2, i2, s2, h2⟩ := workoutsStep_nofail db1 batch.workouts
  obtain ⟨-, hraw2, hm2⟩ := workoutsStep_frame _ batch.workouts db1 db2 i2 s2 h2
  refine ⟨db2, ⟨i1, i2, s1 + s2⟩, ?_, ?_, hm2⟩
  · rw [processBatch_ok _ _ db batch h1, h2]
  · have hh : recHashes db2 = recHashes db1 := by
      unfold recHashes
      rw [hraw2]
    intro r hr
    rw [hh]
    exact hm1 r hr

theorem processBatch_dup (db : DB) (batch : SyncBatch)
    (hr : ∀ r ∈ batch.records.getD [], generateRecordHash r ∈ recHashes db)
    (hw : ∀ w ∈ batch.workouts.getD [], generateWorkoutHash w ∈ wkHashes db) :
    processBatch (fun _ => false) (fun _ => false) db batch =
      .ok (db, ⟨0, 0, (batch.records.getD []).length + (batch.workouts.getD []).length⟩) := by
  rw [processBatch_ok _ _ db batch (recordsStep_dup db batch.records hr),
      workoutsStep_dup db batch.workouts hw]

theorem processBatch_frame (qfail : HealthRecordPayload → Bool)
    (wfail : WorkoutPayload → Bool) (db : DB) (batch : SyncBatch)
    {db' : DB} {c : Counts}
    (h : processBatch qfail wfail db batch = .ok (db', c)) :
    (∃ extR, db'.healthRaw = db.healthRaw ++ extR) ∧
      (∃ extW, db'.workouts = db.workouts ++ extW) := by
  rw [processBatch] at h
  split at h
  · exact Except.noConfusion h
  · rename_i db1 ir s1 h1
    split at h
    · exact Except.noConfusion h
    · rename_i db2 iw s2 h2
      have hdb2 : db2 = db' := congrArg Prod.fst (Except.ok.inj h)
      subst hdb2
      obtain ⟨⟨e1, he1⟩, hw1, -⟩ := recordsStep_frame qfail batch.records db db1 ir s1 h1
      obtain ⟨⟨e2, he2⟩, hr2, -⟩ := workoutsStep_frame wfail batch.workouts db1 db2 iw s2 h2
      exact ⟨⟨e1, by rw [hr2, he1]⟩, ⟨e2, by rw [he2, hw1]⟩⟩

theorem POST_frame (qfail : HealthRecordPayload → Bool)
    (wfail : WorkoutPayload → Bool) (secret : String)
    (authHeader : Option String) (db : DB) (batch : SyncBatch) :
    ∃ extR extW,
      (POST qfail wfail secret authHeader db batch).1.healthRaw = db.healthRaw ++ extR ∧
      (POST qfail wfail secret authHeader db batch).1.workouts = db.workouts ++ extW := by
  unfold POST
  cases hb : authOk secret authHeader with
  | false => exact ⟨[], [], by simp, by simp⟩
  | true =>
    simp only [Bool.not_true, Bool.false_eq_true, if_false]
    cases hpb : processBatch qfail wfail db batch with
    | error e => exact ⟨[], [], by simp, by simp⟩
    | ok p =>
      obtain ⟨db', c⟩ := p
      obtain ⟨⟨eR, hR⟩, ⟨eW, hW⟩⟩ := processBatch_frame qfail wfail db batch hpb
      exact ⟨eR, eW, by simpa using hR, by simpa using hW⟩

/-- Claim C2: POSTing the same SyncBatch twice with valid auth leaves the
same stored rows as posting it once; the second call inserts zero records
and zero workouts and reports every element of the batch as a skipped
duplicate. -/
theorem idempotent_ingestion (secret : String) (authHeader : Option String)
    (db : DB) (batch : SyncBatch)
    (hauth : authOk secret authHeader = true) :
    POST (fun _ => false) (fun _ => false) secret authHeader
        (POST (fun _ => false) (fun _ => false) secret authHeader db batch).1 batch =
      ((POST (fun _ => false) (fun _ => false) secret authHeader db batch).1,
        SyncResponse.ok 0 0
          ((batch.records.getD []).length + (batch.workouts.getD []).length)) := by
  obtain ⟨db1, c, hpb, hmr, hmw⟩ := processBatch_nofail_props db batch
  have h1 : POST (fun _ => false) (fun _ => false) secret authHeader db batch
      = (db1, .ok c.insertedRecords c.insertedWorkouts c.skippedDuplicates) := by
    unfold POST
    simp only [hauth, Bool.not_true, Bool.false_eq_true, if_false]
    rw [hpb]
  rw [h1]
  have h2 : processBatch (fun _ => false) (fun _ => false) db1 batch =
      .ok (db1, ⟨0, 0, (batch.records.getD []).length + (batch.workouts.getD []).length⟩) :=
    processBatch_dup db1 batch hmr hmw
  unfold POST
  simp only [hauth, Bool.not_true, Bool.false_eq_true, if_false]
  rw [h2]

/-- Witness for C2 at a concrete authorized request and one-record batch. -/
theorem idempotent_ingestion_witness :
    authOk "s3cr3t" (some "Bearer s3cr3t") = true ∧
    POST (fun _ => false) (fun _ => false) "s3cr3t" (some "Bearer s3cr3t")
        (POST (fun _ => false) (fun _ => false) "s3cr3t" (some "Bearer s3cr3t")
          dbFix batchFix).1 batchFix =
      ((POST (fun _ => false) (fun _ => false) "s3cr3t" (some "Bearer s3cr3t")
          dbFix batchFix).1,
        SyncResponse.ok 0 0
          ((batchFix.records.getD []).length + (batchFix.workouts.getD []).length)) :=
  ⟨by decide, idempotent_ingestion "s3cr3t" (some "Bearer s3cr3t") dbFix batchFix (by decide)⟩

/-- Claim C3: if the storage layer raises an unrecoverable error on any
element of the batch, the whole transaction is rolled back: the stored
state after the call equals the stored state before it and the response is
the 500 failure shape; none of the batch's elements is persisted. -/
theorem atomic_batch_commit (qfail : HealthRecordPayload → Bool)
    (wfail : WorkoutPayload → Bool) (secret : String)
    (authHeader : Option String) (db : DB) (batch : SyncBatch)
    (hauth : authOk secret authHeader = true)
    (hfail : (∃ r ∈ batch.records.getD [], qfail r = true) ∨
      (∃ w ∈ batch.workouts.getD [], wfail w = true)) :
    POST qfail wfail secret authHeader db batch = (db, .syncFailed "storage failure") := by
  have hpb : processBatch qfail wfail db batch = .error "storage failure" := by
    rcases hfail with hf | hf
    · exact processBatch_err1 qfail wfail db batch (recordsStep_err qfail db batch.records hf)
    · rcases recordsStep_shape qfail db batch.records with ⟨⟨db1, i1, s1⟩, h1⟩ | h1
      · rw [processBatch_ok qfail wfail db batch h1,
            workoutsStep_err wfail db1 batch.workouts hf]
      · exact processBatch_err1 qfail wfail db batch h1
  unfold POST
  simp only [hauth, Bool.not_true, Bool.false_eq_true, if_false]
  rw [hpb]

/-- Witness for C3: a two-record batch whose second record's INSERT is
rejected leaves the empty store empty and fails the whole call. -/
theorem atomic_batch_commit_witness :
    authOk "s3cr3t" (some "Bearer s3cr3t") = true ∧
    (∃ r ∈ batchBoom.records.getD [], qfailBoom r = true) ∧
    POST qfailBoom (fun _ => false) "s3cr3t" (some "Bearer s3cr3t") dbFix batchBoom
      = (dbFix, .syncFailed "storage failure") :=
  ⟨by decide,
   ⟨rBoom, List.mem_cons_of_mem _ (List.mem_cons_self _ _), by decide⟩,
   atomic_batch_commit qfailBoom (fun _ => false) "s3cr3t" (some "Bearer s3cr3t")
     dbFix batchBoom (by decide)
     (Or.inl ⟨rBoom, List.mem_cons_of_mem _ (List.mem_cons_self _ _), by decide⟩)⟩

/-- Claim C8: the handler never reads `deletedUUIDs` — two requests
identical except for their deletion markers produce the same stored state
and the same response, and no stored row is ever deleted (both tables only
ever grow by a suffix). -/
theorem deletion_markers_ignored (qfail : HealthRecordPayload → Bool)
    (wfail : WorkoutPayload → Bool) (secret : String)
    (authHeader : Option String) (db : DB) (b : SyncBatch)
    (d1 d2 : List String) :
    POST qfail wfail secret authHeader db { b with deletedUUIDs := d1 } =
      POST qfail wfail secret authHeader db { b with deletedUUIDs := d2 } ∧
    ∃ extR extW,
      (POST qfail wfail secret authHeader db { b with deletedUUIDs := d1 }).1.healthRaw
          = db.healthRaw ++ extR ∧
      (POST qfail wfail secret authHeader db { b with deletedUUIDs := d1 }).1.workouts
          = db.workouts ++ extW := by
  constructor
  · have hpb : ∀ d, processBatch qfail wfail db { b with deletedUUIDs := d }
        = processBatch qfail wfail db b := by
      intro d
      cases b
      rfl
    unfold POST
    rw [hpb d1, hpb d2]
  · exact POST_frame qfail wfail secret authHeader db { b with deletedUUIDs := d1 }

/-! ## Chunking lemmas (batch assembly) -/

theorem chunksFuel_nil (B fuel : Nat) : chunksFuel B fuel ([] : List α) = [] := by
  cases fuel <;> rfl

theorem chunksFuel_cons (B fuel : Nat) (x : α) (xs : List α) :
    chunksFuel B (fuel + 1) (x :: xs) =
      (x :: xs).take B :: chunksFuel B fuel ((x :: xs).drop B) := rfl

theorem chunksFuel_congr (B : Nat) (hB : 0 < B) :
    ∀ (f1 : Nat) (f2 : Nat) (l : List α), l.length ≤ f1 → l.length ≤ f2 →
      chunksFuel B f1 l = chunksFuel B f2 l := by
  intro f1
  induction f1 with
  | zero =>
    intro f2 l h1 h2
    have : l = [] := List.length_eq_zero.mp (Nat.le_zero.mp h1)
    subst this
    rw [chunksFuel_nil, chunksFuel_nil]
  | succ f1 ih =>
    intro f2 l h1 h2
    cases l with
    | nil => rw [chunksFuel_nil, chunksFuel_nil]
    | cons x xs =>
      cases f2 with
      | zero => simp at h2
      | succ g =>
        rw [chunksFuel_cons, chunksFuel_cons]
        congr 1
        have hd : ((x :: xs).drop B).length ≤ f1 := by
          rw [List.length_drop]
          simp only [List.length_cons] at h1 ⊢
          omega
        have hd2 : ((x :: xs).drop B).length ≤ g := by
          rw [List.length_drop]
          simp only [List.length_cons] at h2 ⊢
          omega
        exact ih g _ hd hd2

theorem chunks_nil (B : Nat) : chunks B ([] : List α) = [] := rfl

theorem chunks_cons (B : Nat) (hB : 0 < B) (l : List α) (hl : l ≠ []) :
    chunks B l = l.take B :: chunks B (l.drop B) := by
  obtain ⟨x, xs, rfl⟩ := List.exists_cons_of_ne_nil hl
  show chunksFuel B (xs.length + 1) (x :: xs) = _
  rw [chunksFuel_cons]
  congr 1
  refine chunksFuel_congr B hB xs.length _ _ ?_ le_rfl
  rw [List.length_drop]
  simp only [List.length_cons]
  omega

theorem chunks_flatten (B : Nat) (hB : 0 < B) :
    ∀ (n : Nat) (l : List α), l.length ≤ n → (chunks B l).flatten = l := by
  intro n
  induction n with
  | zero =>
    intro l h
    have : l = [] := List.length_eq_zero.mp (Nat.le_zero.mp h)
    subst this
    rfl
  | succ n ih =>
    intro l h
    by_cases hl : l = []
    · subst hl; rfl
    · rw [chunks_cons B hB l hl]
      have hlen : 0 < l.length := List.length_pos.mpr hl
      have : (chunks B (l.drop B)).flatten = l.drop B := by
        refine ih _ ?_
        rw [List.length_drop]
        omega
      simp only [List.flatten_cons, this, List.take_append_drop]

theorem chunks_sizes (B : Nat) (hB : 0 < B) :
    ∀ (n : Nat) (l : List α), l.length ≤ n → l ≠ [] →
      ∃ k last, (chunks B l).length = k + 1 ∧ 0 < last ∧ last ≤ B ∧
        l.length = B * k + last ∧
        (chunks B l).map List.length = List.replicate k B ++ [last] := by
  intro n
  induction n with
  | zero =>
    intro l h hl
    exact absurd (List.length_eq_zero.mp (Nat.le_zero.mp h)) hl
  | succ n ih =>
    intro l h hl
    have hlen : 0 < l.length := List.length_pos.mpr hl
    rw [chunks_cons B hB l hl]
    by_cases hd : l.drop B = []
    · -- the whole list fits in one chunk
      have hlB : l.length ≤ B := by
        have := congrArg List.length hd
        rw [List.length_drop] at this
        simpa using Nat.le_of_sub_eq_zero this
      refine ⟨0, l.length, ?_, hlen, hlB, by simp, ?_⟩
      · rw [hd, chunks_nil]
        rfl
      · rw [hd, chunks_nil]
        simp [List.length_take, Nat.min_eq_right hlB]
    · have hBlt : B < l.length := by
        by_contra hc
        exact hd (List.drop_eq_nil_of_le (by omega))
      obtain ⟨k, last, hk, h0, hle, hsum, hmap⟩ := ih (l.drop B) (by rw [List.length_drop]; omega) hd
      refine ⟨k + 1, last, by simp [hk], h0, hle, ?_, ?_⟩
      · rw [List.length_drop] at hsum
        have : B * (k + 1) = B * k + B := Nat.mul_succ B k
        omega
      · simp only [List.map_cons, hmap, List.replicate_succ, List.cons_append]
        congr 1
        rw [List.length_take, Nat.min_eq_left (by omega)]

/-! ## Batch-list shape lemmas -/

theorem attachDeletions_length (del : List String) (cs : List (List α)) :
    (attachDeletions del cs).length = cs.length := by
  cases cs <;> simp [attachDeletions]

theorem attachDeletions_map_fst (del : List String) (cs : List (List α)) :
    (attachDeletions del cs).map Prod.fst = cs := by
  cases cs with
  | nil => rfl
  | cons c cs =>
    simp [attachDeletions, List.map_map, Function.comp_def]

theorem syncDataRecords_proj (ty : HealthDataType) (rs : List HealthRecordPayload)
    (del : List String) (dev ts : String) :
    (syncDataRecords ty rs del dev ts).map (fun b => b.records.getD [])
      = chunks SyncConfig.batchSize rs := by
  unfold syncDataRecords
  rw [List.map_map]
  have hcomp : ((fun b : SyncBatch => b.records.getD []) ∘
      fun cd : List HealthRecordPayload × List String =>
        ({ dataType := ty.rawValue, records := some cd.1, workouts := none,
           deletedUUIDs := cd.2, deviceId := dev, timestamp := ts } : SyncBatch))
      = Prod.fst := by
    funext cd
    rfl
  rw [hcomp, attachDeletions_map_fst]

theorem syncDataWorkouts_proj (ty : HealthDataType) (ws : List WorkoutPayload)
    (del : List String) (dev ts : String) :
    (syncDataWorkouts ty ws del dev ts).map (fun b => b.workouts.getD [])
      = chunks SyncConfig.batchSize ws := by
  unfold syncDataWorkouts
  rw [List.map_map]
  have hcomp : ((fun b : SyncBatch => b.workouts.getD []) ∘
      fun cd : List WorkoutPayload × List String =>
        ({ dataType := ty.rawValue, records := none, workouts := some cd.1,
           deletedUUIDs := cd.2, deviceId := dev, timestamp := ts } : SyncBatch))
      = Prod.fst := by
    funext cd
    rfl
  rw [hcomp, attachDeletions_map_fst]

theorem syncDataRecords_length (ty : HealthDataType) (rs : List HealthRecordPayload)
    (del : List String) (dev ts : String) :
    (syncDataRecords ty rs del dev ts).length = (chunks SyncConfig.batchSize rs).length := by
  unfold syncDataRecords
  rw [List.length_map, attachDeletions_length]

theorem syncDataWorkouts_length (ty : HealthDataType) (ws : List WorkoutPayload)
    (del : List String) (dev ts : String) :
    (syncDataWorkouts ty ws del dev ts).length = (chunks SyncConfig.batchSize ws).length := by
  unfold syncDataWorkouts
  rw [List.length_map, attachDeletions_length]

theorem syncDataRecords_deletions (ty : HealthDataType) (rs : List HealthRecordPayload)
    (del : List String) (dev ts : String) (hrs : rs ≠ []) :
    (syncDataRecords ty rs del dev ts).head?.map SyncBatch.deletedUUIDs = some del ∧
    ∀ b ∈ (syncDataRecords ty rs del dev ts).tail, b.deletedUUIDs = [] := by
  have hB : 0 < SyncConfig.batchSize := by decide
  obtain ⟨c, cs, hc⟩ : ∃ c cs, chunks SyncConfig.batchSize rs = c :: cs :=
    ⟨_, _, chunks_cons SyncConfig.batchSize hB rs hrs⟩
  unfold syncDataRecords
  rw [hc]
  constructor
  · rfl
  · intro b hb
    simp only [attachDeletions, List.map_cons, List.tail_cons, List.map_map] at hb
    obtain ⟨c', -, rfl⟩ := List.mem_map.mp hb
    rfl

theorem syncDataWorkouts_deletions (ty : HealthDataType) (ws : List WorkoutPayload)
    (del : List String) (dev ts : String) (hws : ws ≠ []) :
    (syncDataWorkouts ty ws del dev ts).head?.map SyncBatch.deletedUUIDs = some del ∧
    ∀ b ∈ (syncDataWorkouts ty ws del dev ts).tail, b.deletedUUIDs = [] := by
  have hB : 0 < SyncConfig.batchSize := by decide
  obtain ⟨c, cs, hc⟩ : ∃ c cs, chunks SyncConfig.batchSize ws = c :: cs :=
    ⟨_, _, chunks_cons SyncConfig.batchSize hB ws hws⟩
  unfold syncDataWorkouts
  rw [hc]
  constructor
  · rfl
  · intro b hb
    simp only [attachDeletions, List.map_cons, List.tail_cons, List.map_map] at hb
    obtain ⟨c', -, rfl⟩ := List.mem_map.mp hb
    rfl

theorem syncDataRecords_shape (ty : HealthDataType) (rs : List HealthRecordPayload)
    (del : List String) (dev ts : String) :
    ∀ b ∈ syncDataRecords ty rs del dev ts, b.workouts = none := by
  intro b hb
  unfold syncDataRecords at hb
  obtain ⟨cd, -, rfl⟩ := List.mem_map.mp hb
  rfl

theorem syncDataWorkouts_shape (ty : HealthDataType) (ws : List WorkoutPayload)
    (del : List String) (dev ts : String) :
    ∀ b ∈ syncDataWorkouts ty ws del dev ts, b.records = none := by
  intro b hb
  unfold syncDataWorkouts at hb
  obtain ⟨cd, -, rfl⟩ := List.mem_map.mp hb
  rfl

/-- Claim C7: batch assembly splits a non-empty record (or workout)
sequence into ceil(n/B) batches for the configured batch size B, each of
size B except a shorter last batch holding the remainder, preserving the
element order (the concatenation of the batches is the input), with each
batch carrying only records (resp. only workouts) and the deletion
identifiers attached to the first batch only. -/
theorem batch_assembly :
    (∀ (ty : HealthDataType) (rs : List HealthRecordPayload)
        (del : List String) (dev ts : String), rs ≠ [] →
      (syncDataRecords ty rs del dev ts).length
          = (rs.length + SyncConfig.batchSize - 1) / SyncConfig.batchSize ∧
      (syncDataRecords ty rs del dev ts).map (fun b => (b.records.getD []).length)
          = List.replicate ((syncDataRecords ty rs del dev ts).length - 1) SyncConfig.batchSize
            ++ [rs.length - SyncConfig.batchSize * ((syncDataRecords ty rs del dev ts).length - 1)] ∧
      ((syncDataRecords ty rs del dev ts).map (fun b => b.records.getD [])).flatten = rs ∧
      (∀ b ∈ syncDataRecords ty rs del dev ts, b.workouts = none) ∧
      (syncDataRecords ty rs del dev ts).head?.map SyncBatch.deletedUUIDs = some del ∧
      (∀ b ∈ (syncDataRecords ty rs del dev ts).tail, b.deletedUUIDs = [])) ∧
    (∀ (ty : HealthDataType) (ws : List WorkoutPayload)
        (del : List String) (dev ts : String), ws ≠ [] →
      (syncDataWorkouts ty ws del dev ts).length
          = (ws.length + SyncConfig.batchSize - 1) / SyncConfig.batchSize ∧
      (syncDataWorkouts ty ws del dev ts).map (fun b => (b.workouts.getD []).length)
          = List.replicate ((syncDataWorkouts ty ws del dev ts).length - 1) SyncConfig.batchSize
            ++ [ws.length - SyncConfig.batchSize * ((syncDataWorkouts ty ws del dev ts).length - 1)] ∧
      ((syncDataWorkouts ty ws del dev ts).map (fun b => b.workouts.getD [])).flatten = ws ∧
      (∀ b ∈ syncDataWorkouts ty ws del dev ts, b.records = none) ∧
      (syncDataWorkouts ty ws del dev ts).head?.map SyncBatch.deletedUUIDs = some del ∧
      (∀ b ∈ (syncDataWorkouts ty ws del dev ts).tail, b.deletedUUIDs = [])) := by
  have hB : 0 < SyncConfig.batchSize := by decide
  constructor
  · intro ty rs del dev ts hrs
    obtain ⟨k, last, hk, h0, hle, hsum, hmap⟩ :=
      chunks_sizes SyncConfig.batchSize hB rs.length rs le_rfl hrs
    have hlen : (syncDataRecords ty rs del dev ts).length = k + 1 := by
      rw [syncDataRecords_length, hk]
    obtain ⟨hhead, htail⟩ := syncDataRecords_deletions ty rs del dev ts hrs
    refine ⟨?_, ?_, ?_, syncDataRecords_shape ty rs del dev ts, hhead, htail⟩
    · rw [hlen]
      simp only [SyncConfig.batchSize] at hsum h0 hle ⊢
      omega
    · have hmm : (syncDataRecords ty rs del dev ts).map (fun b => (b.records.getD []).length)
          = ((syncDataRecords ty rs del dev ts).map (fun b => b.records.getD [])).map
              List.length := by
        rw [List.map_map]
        rfl
      rw [hmm, syncDataRecords_proj, hmap, hlen, Nat.add_sub_cancel, hsum,
          Nat.add_sub_cancel_left]
    · rw [syncDataRecords_proj]
      exact chunks_flatten SyncConfig.batchSize hB rs.length rs le_rfl
  · intro ty ws del dev ts hws
    obtain ⟨k, last, hk, h0, hle, hsum, hmap⟩ :=
      chunks_sizes SyncConfig.batchSize hB ws.length ws le_rfl hws
    have hlen : (syncDataWorkouts ty ws del dev ts).length = k + 1 := by
      rw [syncDataWorkouts_length, hk]
    obtain ⟨hhead, htail⟩ := syncDataWorkouts_deletions ty ws del dev ts hws
    refine ⟨?_, ?_, ?_, syncDataWorkouts_shape ty ws del dev ts, hhead, htail⟩
    · rw [hlen]
      simp only [SyncConfig.batchSize] at hsum h0 hle ⊢
      omega
    · have hmm : (syncDataWorkouts ty ws del dev ts).map (fun b => (b.workouts.getD []).length)
          = ((syncDataWorkouts ty ws del dev ts).map (fun b => b.workouts.getD [])).map
              List.length := by
        rw [List.map_map]
        rfl
      rw [hmm, syncDataWorkouts_proj, hmap, hlen, Nat.add_sub_cancel, hsum,
          Nat.add_sub_cancel_left]
    · rw [syncDataWorkouts_proj]
      exact chunks_flatten SyncConfig.batchSize hB ws.length ws le_rfl

/-- Witness for C7: the spec scenario, 2500 heart-rate records at batch
size 1000, yields ceil(2500/1000) = 3 batches. -/
theorem batch_assembly_witness :
    (List.replicate 2500 rFix ≠ ([] : List HealthRecordPayload)) ∧
    (syncDataRecords HealthDataType.heartRate (List.replicate 2500 rFix)
        ["deleted-uuid-1"] "device-1" "t").length
      = ((List.replicate 2500 rFix).length + SyncConfig.batchSize - 1) / SyncConfig.batchSize ∧
    (syncDataRecords HealthDataType.heartRate (List.replicate 2500 rFix)
        ["deleted-uuid-1"] "device-1" "t").head?.map SyncBatch.deletedUUIDs
      = some ["deleted-uuid-1"] ∧
    ((List.replicate 2500 rFix).length + SyncConfig.batchSize - 1) / SyncConfig.batchSize = 3 := by
  have hne : List.replicate 2500 rFix ≠ ([] : List HealthRecordPayload) := by
    intro h
    have hlen := congrArg List.length h
    rw [List.length_replicate, List.length_nil] at hlen
    exact absurd hlen (by norm_num)
  have happ := batch_assembly.1 HealthDataType.heartRate (List.replicate 2500 rFix)
    ["deleted-uuid-1"] "device-1" "t" hne
  refine ⟨hne, happ.1, happ.2.2.2.2.1, ?_⟩
  rw [List.length_replicate]
  norm_num [SyncConfig.batchSize]

/-! ## Upload-queue lemmas (SyncManager.processQueue) -/

theorem processOne_queue (env : ClientEnv) (b : SyncBatch) (rest : List SyncBatch)
    (s : ClientState) : (processOne env b rest s).uploadQueue = rest := by
  unfold processOne
  cases h : env.uploadOk b <;>
    cases hfr : HealthDataType.fromRaw b.dataType <;> simp [h, hfr]

theorem processOne_pending (env : ClientEnv) (b : SyncBatch) (rest : List SyncBatch)
    (s : ClientState) : (processOne env b rest s).pendingBatches = rest.length := by
  unfold processOne
  cases h : env.uploadOk b <;>
    cases hfr : HealthDataType.fromRaw b.dataType <;> simp [h, hfr]

theorem processOne_fail (env : ClientEnv) (b : SyncBatch) (rest : List SyncBatch)
    (s : ClientState) (h : env.uploadOk b = false) :
    processOne env b rest s =
      { s with uploadQueue := rest, pendingBatches := rest.length,
               lastError := some (env.uploadErr b) } := by
  unfold processOne
  simp [h]

theorem processOne_ok_fields (env : ClientEnv) (b : SyncBatch) (rest : List SyncBatch)
    (s : ClientState) (h : env.uploadOk b = true) :
    (processOne env b rest s).lastSyncTime = some env.now ∧
    (processOne env b rest s).lastError = none ∧
    ∀ t : HealthDataType, HealthDataType.fromRaw b.dataType ≠ some t →
      (processOne env b rest s).syncTimes t = s.syncTimes t := by
  unfold processOne
  rw [if_pos h]
  cases hfr : HealthDataType.fromRaw b.dataType with
  | none => exact ⟨rfl, rfl, fun t _ => rfl⟩
  | some t' =>
    refine ⟨rfl, rfl, fun t hne => ?_⟩
    have htt : t ≠ t' := fun he => hne (by rw [he])
    simp [htt]

theorem processLoopFuel_zero (env : ClientEnv) (s : ClientState) :
    processLoopFuel env 0 s = s := rfl

theorem processLoopFuel_succ_nil (env : ClientEnv) (fuel : Nat) (s : ClientState)
    (hq : s.uploadQueue = []) : processLoopFuel env (fuel + 1) s = s := by
  rw [processLoopFuel, hq]

theorem processLoopFuel_succ_cons (env : ClientEnv) (fuel : Nat) (s : ClientState)
    (b : SyncBatch) (rest : List SyncBatch) (hq : s.uploadQueue = b :: rest) :
    processLoopFuel env (fuel + 1) s
      = processLoopFuel env fuel (processOne env b rest s) := by
  rw [processLoopFuel, hq]

theorem processLoopFuel_props (env : ClientEnv) :
    ∀ (fuel : Nat) (s : ClientState), s.uploadQueue.length ≤ fuel →
      ((processLoopFuel env fuel s).uploadQueue = []) ∧
      (s.pendingBatches = s.uploadQueue.length →
        (processLoopFuel env fuel s).pendingBatches = 0) ∧
      (∀ t : HealthDataType,
        (∀ b ∈ s.uploadQueue, env.uploadOk b = true →
          HealthDataType.fromRaw b.dataType ≠ some t) →
        (processLoopFuel env fuel s).syncTimes t = s.syncTimes t) ∧
      ((∀ b ∈ s.uploadQueue, env.uploadOk b = false) →
        (processLoopFuel env fuel s).lastSyncTime = s.lastSyncTime) ∧
      (∀ (q : List SyncBatch) (b : SyncBatch), s.uploadQueue = q ++ [b] →
        env.uploadOk b = false →
        (processLoopFuel env fuel s).lastError = some (env.uploadErr b)) := by
  intro fuel
  induction fuel with
  | zero =>
    intro s hle
    have hnil : s.uploadQueue = [] :=
      List.length_eq_zero.mp (Nat.le_zero.mp hle)
    rw [processLoopFuel_zero]
    refine ⟨hnil, ?_, fun t _ => rfl, fun _ => rfl, ?_⟩
    · intro hp
      rw [hp, hnil]
      rfl
    · intro q b hq
      rw [hnil] at hq
      exact absurd hq.symm (List.append_ne_nil_of_right_ne_nil q (by simp))
  | succ fuel ih =>
    intro s hle
    cases hq : s.uploadQueue with
    | nil =>
      rw [processLoopFuel_succ_nil env fuel s hq]
      refine ⟨hq, ?_, fun t _ => rfl, fun _ => rfl, ?_⟩
      · intro hp
        rw [hp]
        rfl
      · intro q b hqb
        exact absurd hqb.symm (List.append_ne_nil_of_right_ne_nil q (by simp))
    | cons x rest =>
      rw [processLoopFuel_succ_cons env fuel s x rest hq]
      have hq' : (processOne env x rest s).uploadQueue = rest := processOne_queue env x rest s
      have hle' : (processOne env x rest s).uploadQueue.length ≤ fuel := by
        rw [hq']
        rw [hq] at hle
        simpa using Nat.le_of_succ_le_succ (by simpa using hle)
      obtain ⟨ha, hb, hc, hd, he⟩ := ih (processOne env x rest s) hle'
      refine ⟨ha, ?_, ?_, ?_, ?_⟩
      · intro _
        refine hb ?_
        rw [processOne_pending, hq']
      · intro t hno
        have h1 : (processOne env x rest s).syncTimes t = s.syncTimes t := by
          cases hok : env.uploadOk x with
          | false => rw [processOne_fail env x rest s hok]
          | true =>
            exact (processOne_ok_fields env x rest s hok).2.2 t
              (hno x (List.mem_cons_self x rest) hok)
        rw [hc t ?_, h1]
        intro b hbmem hbok
        exact hno b (List.mem_cons_of_mem x (by rwa [hq'] at hbmem)) hbok
      · intro hall
        have hokx : env.uploadOk x = false := hall x (List.mem_cons_self x rest)
        have h1 : (processOne env x rest s).lastSyncTime = s.lastSyncTime := by
          rw [processOne_fail env x rest s hokx]
        rw [hd ?_, h1]
        intro b hbmem
        exact hall b (List.mem_cons_of_mem x (by rwa [hq'] at hbmem))
      · intro q b hqb hbfail
        cases q with
        | nil =>
          obtain ⟨rfl, rfl⟩ : x = b ∧ rest = [] := by
            simpa using hqb
          have hsfail := processOne_fail env x [] s hbfail
          have hdone : (processOne env x [] s).uploadQueue = [] :=
            processOne_queue env x [] s
          have hid : processLoopFuel env fuel (processOne env x [] s)
              = processOne env x [] s := by
            cases fuel with
            | zero => exact processLoopFuel_zero env _
            | succ f => exact processLoopFuel_succ_nil env f _ hdone
          rw [hid, hsfail]
        | cons y q' =>
          obtain ⟨rfl, hrest⟩ : x = y ∧ rest = q' ++ [b] := by
            simpa using hqb
          exact he q' b (by rw [hq', hrest]) hbfail

/-- Claim C9: when processQueue returns, the upload queue is empty and the
pending count is 0, even if some uploads threw; the per-type last-sync
times change only for types with a successful upload; lastSyncTime is
unchanged if every upload failed; and a failed final batch leaves its
error in lastError (failed batches are dropped, never re-queued). -/
theorem failed_batches_dropped (env : ClientEnv) (s : ClientState)
    (hguard : s.isProcessingQueue = false)
    (hinv : s.pendingBatches = s.uploadQueue.length) :
    (processQueue env s).uploadQueue = [] ∧
    (processQueue env s).pendingBatches = 0 ∧
    (∀ t : HealthDataType,
      (∀ b ∈ s.uploadQueue, env.uploadOk b = true →
        HealthDataType.fromRaw b.dataType ≠ some t) →
      (processQueue env s).syncTimes t = s.syncTimes t) ∧
    ((∀ b ∈ s.uploadQueue, env.uploadOk b = false) →
      (processQueue env s).lastSyncTime = s.lastSyncTime) ∧
    (∀ (q : List SyncBatch) (b : SyncBatch), s.uploadQueue = q ++ [b] →
      env.uploadOk b = false →
      (processQueue env s).lastError = some (env.uploadErr b)) := by
  have hpq : processQueue env s =
      { processLoopFuel env s.uploadQueue.length
          { s with isProcessingQueue := true, isSyncing := true } with
        isProcessingQueue := false, isSyncing := false } := by
    unfold processQueue
    rw [if_neg (by simp [hguard])]
  obtain ⟨ha, hb, hc, hd, he⟩ := processLoopFuel_props env s.uploadQueue.length
    { s with isProcessingQueue := true, isSyncing := true } le_rfl
  rw [hpq]
  exact ⟨ha, hb hinv, hc, hd, he⟩

/-- Witness for C9: a queue holding one succeeding and one failing batch
drains completely and records the failing batch's error. -/
theorem failed_batches_dropped_witness :
    csFix.isProcessingQueue = false ∧
    csFix.pendingBatches = csFix.uploadQueue.length ∧
    (processQueue envFix csFix).uploadQueue = [] ∧
    (processQueue envFix csFix).pendingBatches = 0 ∧
    (processQueue envFix csFix).lastError = some "Server error (500)" := by
  have happ := failed_batches_dropped envFix csFix rfl rfl
  exact ⟨rfl, rfl, happ.1, happ.2.1,
    happ.2.2.2.2 [bOkFix] bBadFix rfl (by decide)⟩

/-- Claim C6: with no anchor, the fetch predicate restricts the anchored
query to samples starting within the backfill window (no returned sample
is older); with an anchor, no time predicate is applied and the returned
samples are determined by the anchor alone. -/
theorem bounded_initial_fetch :
    (∀ (store : HKStore) (now : Int),
      ∀ s ∈ (anchoredQuery store none (fetchPredicate none now)).1,
        now - SyncConfig.backfillDays * 86400 ≤ s.startDate) ∧
    (∀ (a : Nat) (now : Int), fetchPredicate (some a) now = none) ∧
    (∀ (store : HKStore) (a : Nat),
      (anchoredQuery store (some a) none).1
        = store.samples.filter (fun s => decide (a < s.seq))) := by
  refine ⟨?_, fun a now => rfl, ?_⟩
  · intro store now s hs
    simp only [anchoredQuery, fetchPredicate, List.mem_filter, Bool.and_eq_true,
      decide_eq_true_eq] at hs
    exact hs.2.2
  · intro store a
    simp [anchoredQuery]

/-- Witness for C6: in a store holding an old and a recent sample, the
recent sample is returned by the initial fetch and satisfies the window
bound, while an existing anchor yields no time predicate. -/
theorem bounded_initial_fetch_witness :
    (sampleNew ∈ (anchoredQuery storeFix none (fetchPredicate none 1700000000)).1) ∧
    ((1700000000 : Int) - SyncConfig.backfillDays * 86400 ≤ sampleNew.startDate) ∧
    fetchPredicate (some 5) 1700000000 = none := by
  refine ⟨by decide, ?_, bounded_initial_fetch.2.1 5 1700000000⟩
  exact bounded_initial_fetch.1 storeFix 1700000000 sampleNew (by decide)

/-- Claim C1 (evidence of the code's behavior at the failing input): from
anchor 3, the fetch returns one sample with new anchor 5; every upload
fails and the failure is recorded in lastError, yet fetchAndSync persists
anchor 5 — the cursor advances past data that was never confirmed
ingested, contradicting the cursor-monotonicity contract. -/
theorem cursor_advances_despite_failed_upload :
    stC1.anchors HealthDataType.heartRate = some 3 ∧
    (fetchAndSync envC1 storeC1 HealthDataType.heartRate stC1).anchors
      HealthDataType.heartRate = some 5 ∧
    (fetchAndSync envC1 storeC1 HealthDataType.heartRate stC1).client.lastError
      = some "Server error (500)" := by
  refine ⟨rfl, ?_, ?_⟩ <;> decide

end HealthSync
